import Mathlib

/-!
# Verification of the evidence-gate statistical core

A shallow embedding, over exact rationals, of the statistical engine of the
`evidence-gate` repository: the special-function library and the two tests in
`src/core/welch-t-test.ts` and `src/core/mann-whitney.ts`, the Shapiro-Wilk
normality test of `src/core/normality.ts`, the z-score outlier detector of
`src/core/outliers.ts`, the per-sample diagnostics of
`src/diagnostics/sample-quality.ts`, and the three-gate comparison pipeline of
`src/compare.ts`.

Modelling conventions:
* Numbers are `ℚ`.  The source runs on IEEE doubles; the claims under
  verification are about control flow, exact branch conditions and algebraic
  relationships, not about rounding, so exact arithmetic is the faithful
  idealization.  Division by zero is `0` in `ℚ` where JavaScript would produce
  `Infinity`/`NaN`; no verified statement depends on such a branch.
* The JavaScript `Math` builtins (`sqrt`, `exp`, `log`, `sin`, `PI`, `pow`)
  are not part of the repository; they are modelled by the `Prims` parameter
  below, whose proof fields record the elementary sign facts of the exact
  functions those builtins approximate.
* The `simple-statistics` library functions (`mean`, `sampleVariance`,
  `sampleStandardDeviation`, `min`, `max`) are likewise external; they are
  modelled by their standard textbook definitions, which the spec prescribes
  ("sample means and sample (n−1-denominator) variances").
* JavaScript booleans are `Bool` (comparisons go through `decide`, which is
  computable on `ℚ`), strings are `String`, and `Number.prototype.toFixed` is
  an abstract formatting parameter `fmt : ℚ → ℕ → String`.
-/

namespace EvidenceGate

/-- Modelled from the spec: the JavaScript `Math` builtins the core calls
(`Math.sqrt`, `Math.exp`, `Math.log`, `Math.sin`, `Math.PI`, `Math.pow`); they
are part of the runtime environment, not of the repository.  The proof fields
state the sign facts of the exact functions these builtins compute, on the
domains the core uses them on; every theorem below is quantified over an
arbitrary interpretation satisfying them. -/
structure Prims where
  sqrt : ℚ → ℚ
  exp : ℚ → ℚ
  log : ℚ → ℚ
  sin : ℚ → ℚ
  pi : ℚ
  rpow : ℚ → ℚ → ℚ
  sqrt_nonneg : ∀ x : ℚ, 0 ≤ x → 0 ≤ sqrt x
  sqrt_pos : ∀ x : ℚ, 0 < x → 0 < sqrt x
  exp_pos : ∀ x : ℚ, 0 < exp x
  exp_zero : exp 0 = 1
  exp_lt_one : ∀ x : ℚ, x < 0 → exp x < 1

/-- Modelled from the spec: `ss.mean` of the external `simple-statistics`
library — the arithmetic mean. -/
def ssMean (l : List ℚ) : ℚ :=
  l.sum / (l.length : ℚ)

/-- Modelled from the spec: `ss.sampleVariance` — the n−1-denominator sample
variance (the spec stresses this denominator choice for Welch's test). -/
def ssSampleVariance (l : List ℚ) : ℚ :=
  (l.map fun x => (x - ssMean l) ^ 2).sum / ((l.length : ℚ) - 1)

/-- Modelled from the spec: `ss.sampleStandardDeviation` — the square root of
the sample variance. -/
def ssSampleStandardDeviation (P : Prims) (l : List ℚ) : ℚ :=
  P.sqrt (ssSampleVariance l)

/-- Modelled from the spec: `ss.min`. -/
def ssMin : List ℚ → ℚ
  | [] => 0
  | x :: xs => xs.foldl min x

/-- Modelled from the spec: `ss.max`. -/
def ssMax : List ℚ → ℚ
  | [] => 0
  | x :: xs => xs.foldl max x

/-- `Verdict` (src/types.ts): the four comparison verdicts. -/
inductive Verdict where
  | significant
  | notSignificant
  | insufficientData
  | dataQualityIssue
deriving DecidableEq

/-- `Recommendation` (src/types.ts). -/
inductive Recommendation where
  | proceed
  | caution
  | useNonparametric
deriving DecidableEq

/-- `DataQuality` (src/types.ts). -/
inductive DataQuality where
  | good
  | acceptable
  | poor
deriving DecidableEq

/-- `EffectSizeLabel` (src/types.ts). -/
inductive EffectSizeLabel where
  | negligible
  | small
  | medium
  | large
deriving DecidableEq

/-- The `testUsed` discriminant of the unified `Evidence` record. -/
inductive TestUsed where
  | welch
  | mannWhitney
deriving DecidableEq

/-- `OutlierResult` (src/types.ts). -/
structure OutlierResult where
  indices : List ℕ
  values : List ℚ
  cleaned : List ℚ
  count : ℕ
  tooMany : Bool
  zScores : List ℚ
deriving DecidableEq

/-- `NormalityTestResult` (src/types.ts). -/
structure NormalityTestResult where
  W : ℚ
  pValue : ℚ
  isNormal : Bool
  interpretation : String
  n : ℕ
deriving DecidableEq

/-- `WelchTestResult` (src/types.ts). -/
structure WelchTestResult where
  t : ℚ
  df : ℚ
  pValue : ℚ
  significant : Bool
  effectSize : ℚ
  effectSizeLabel : EffectSizeLabel
  meanDiff : ℚ
  ci95 : ℚ × ℚ
deriving DecidableEq

/-- `MannWhitneyResult` (src/types.ts). -/
structure MannWhitneyResult where
  U : ℚ
  pValue : ℚ
  significant : Bool
  effectSize : ℚ
  effectSizeLabel : EffectSizeLabel
deriving DecidableEq

/-- `SampleDiagnostics` (src/types.ts). -/
structure SampleDiagnostics where
  n : ℕ
  mean : ℚ
  stdDev : ℚ
  min : ℚ
  max : ℚ
  outliers : OutlierResult
  normality : NormalityTestResult
deriving DecidableEq

/-- `CompareConfig` (src/types.ts): optional fields carry the `?` markers of
the TypeScript interface. -/
structure CompareConfig where
  practicalThreshold : ℚ
  alpha : Option ℚ
  effectSizeMinimum : Option ℚ
  outlierThreshold : Option ℚ
  labels : Option (String × String)
deriving DecidableEq

/-- `Required<CompareConfig>` after the default merge at the top of
`compareConditions` (src/compare.ts). -/
structure ResolvedCompareConfig where
  practicalThreshold : ℚ
  alpha : ℚ
  effectSizeMinimum : ℚ
  outlierThreshold : ℚ
  labels : String × String
deriving DecidableEq

/-- The `fullConfig` merge in `compareConditions` (src/compare.ts): each
optional field falls back to its documented default (`??` is `Option.getD`). -/
def resolveConfig (config : CompareConfig) : ResolvedCompareConfig where
  practicalThreshold := config.practicalThreshold
  alpha := config.alpha.getD 0.05
  effectSizeMinimum := config.effectSizeMinimum.getD 0.5
  outlierThreshold := config.outlierThreshold.getD 2.5
  labels := config.labels.getD ("A", "B")

/-- `Evidence` (src/types.ts).  `degreesOfFreedom` is set to `NaN` by the
source on the Mann-Whitney path; `ℚ` has no `NaN`, so that branch stores `0`
here — no verified claim reads the field on that path. -/
structure Evidence where
  meanA : ℚ
  meanB : ℚ
  difference : ℚ
  differencePercent : ℚ
  pValue : ℚ
  testStatistic : ℚ
  degreesOfFreedom : ℚ
  effectSize : ℚ
  effectSizeLabel : EffectSizeLabel
  ci95 : Option (ℚ × ℚ)
  testUsed : TestUsed
deriving DecidableEq

/-- `ComparisonDiagnostics` (src/types.ts). -/
structure ComparisonDiagnostics where
  sampleA : SampleDiagnostics
  sampleB : SampleDiagnostics
  overallQuality : DataQuality
  warnings : List String
deriving DecidableEq

/-- `CompareResult` (src/types.ts). -/
structure CompareResult where
  verdict : Verdict
  recommendation : Recommendation
  evidence : Evidence
  diagnostics : ComparisonDiagnostics
  interpretation : String
  config : ResolvedCompareConfig
deriving DecidableEq

/-! ## Special-function library (private helpers of src/core/welch-t-test.ts;
src/core/normality.ts and src/core/mann-whitney.ts contain verbatim identical
private copies of `erf` and `normalCDF`, embedded once here). -/

/-- The Abramowitz-Stegun polynomial of `erf`, in the Horner arrangement of the
source, already multiplied by its trailing factor `t`:
`(((((a5*t + a4)*t) + a3)*t + a2)*t + a1) * t`. -/
def erfPoly (t : ℚ) : ℚ :=
  (((((1.061405429 * t + -1.453152027) * t) + 1.421413741) * t + -0.284496736) * t
      + 0.254829592) * t

/-- `erf` (src/core/welch-t-test.ts lines 158-173): sign split, then the
rational approximation on `|x|`. -/
def erf (P : Prims) (x : ℚ) : ℚ :=
  let sign : ℚ := if 0 ≤ x then 1 else -1
  let x := |x|
  let t := 1 / (1 + 0.3275911 * x)
  let y := 1 - erfPoly t * P.exp (-(x * x))
  sign * y

/-- `normalCDF` (src/core/welch-t-test.ts line 135): `0.5·(1+erf(x/√2))`. -/
def normalCDF (P : Prims) (x : ℚ) : ℚ :=
  0.5 * (1 + erf P (x / P.sqrt 2))

/-- The in-range body of `normalQuantile` (the branch for `0 < p ≤ 0.5`). -/
def normalQuantileCore (P : Prims) (p : ℚ) : ℚ :=
  let t := P.sqrt (-2 * P.log p)
  (-(t - (2.515517 + 0.802853 * t + 0.010328 * t * t) /
      (1 + 1.432788 * t + 0.189269 * t * t + 0.001308 * t * t * t)))

/-- `normalQuantile` (src/core/welch-t-test.ts lines 139-156).  The source
returns `-Infinity`/`Infinity` at `p ≤ 0` / `p ≥ 1`; `ℚ` has no infinities, so
those two branches return `0` here.  No verified claim depends on them: every
verified call path passes an argument strictly inside `(0, 1)`.  The source's
self-call at `p > 0.5` lands in the core branch, inlined here. -/
def normalQuantile (P : Prims) (p : ℚ) : ℚ :=
  if p ≤ 0 then 0
  else if 1 ≤ p then 0
  else if 1 / 2 < p then -(normalQuantileCore P (1 - p))
  else normalQuantileCore P p

/-- The nine Lanczos coefficients of `logGamma` (src/core/welch-t-test.ts). -/
def logGammaCoefficients : List ℚ :=
  [0.99999999999980993, 676.5203681218851, -1259.1392167224028,
   771.32342877765313, -176.61502916214059, 12.507343278686905,
   -0.13857109526572012, 9.9843695780195716e-6, 1.5056327351493116e-7]

/-- The `x ≥ 0.5` body of `logGamma`: `x -= 1`, the 8-term coefficient sum
(loop `i = 1 .. g+1` with `g = 7`), then the Lanczos formula. -/
def logGammaPos (P : Prims) (x : ℚ) : ℚ :=
  let x1 := x - 1
  let a := (List.range 8).foldl
    (fun acc i => acc + logGammaCoefficients.getD (i + 1) 0 / (x1 + ((i + 1 : ℕ) : ℚ)))
    (logGammaCoefficients.getD 0 0)
  let t := x1 + 7 + 0.5
  0.5 * P.log (2 * P.pi) + (x1 + 0.5) * P.log t - t + P.log a

/-- `logGamma` (src/core/welch-t-test.ts lines 175-200): reflection for
`x < 0.5` (the source's self-call then lands in the `x ≥ 0.5` body, inlined as
`logGammaPos`). -/
def logGamma (P : Prims) (x : ℚ) : ℚ :=
  if x < 0.5 then P.log (P.pi / P.sin (P.pi * x)) - logGammaPos P (1 - x)
  else logGammaPos P x

/-- The running state of the `betaCF` Lentz loop: the source's mutable `c`,
`d`, `h` plus a flag recording that the `break` was taken. -/
structure CFState where
  c : ℚ
  d : ℚ
  h : ℚ
  done : Bool
deriving DecidableEq

/-- One iteration `m` of the `betaCF` loop body (src/core/welch-t-test.ts
lines 231-251), a no-op once the `break` flag is set. -/
def betaCFStep (x a b : ℚ) (m : ℕ) (st : CFState) : CFState :=
  if st.done then st
  else
    let qab := a + b
    let qap := a + 1
    let qam := a - 1
    let mq : ℚ := (m : ℚ)
    let m2 : ℚ := 2 * mq
    let aa := mq * (b - mq) * x / ((qam + m2) * (a + m2))
    let d := 1 + aa * st.d
    let d := if |d| < 1e-10 then 1e-10 else d
    let c := 1 + aa / st.c
    let c := if |c| < 1e-10 then 1e-10 else c
    let d := 1 / d
    let h := st.h * (d * c)
    let aa := -((a + mq) * (qab + mq) * x) / ((a + m2) * (qap + m2))
    let d := 1 + aa * d
    let d := if |d| < 1e-10 then 1e-10 else d
    let c := 1 + aa / c
    let c := if |c| < 1e-10 then 1e-10 else c
    let d := 1 / d
    let del := d * c
    let h := h * del
    { c := c, d := d, h := h, done := decide (|del - 1| < 1e-10) }

/-- The `betaCF` loop, `fuel` iterations starting at index `m`. -/
def betaCFLoop (x a b : ℚ) : ℕ → ℕ → CFState → CFState
  | 0, _, st => st
  | fuel + 1, m, st => betaCFLoop x a b fuel (m + 1) (betaCFStep x a b m st)

/-- `betaCF` (src/core/welch-t-test.ts lines 218-254): Lentz's continued
fraction for the incomplete beta function, 100 iterations with an early
`break` on convergence. -/
def betaCF (x a b : ℚ) : ℚ :=
  let qab := a + b
  let qap := a + 1
  let d := 1 - qab * x / qap
  let d := if |d| < 1e-10 then 1e-10 else d
  let d := 1 / d
  (betaCFLoop x a b 100 1 { c := 1, d := d, h := d, done := false }).h

/-- `incompleteBeta` (src/core/welch-t-test.ts lines 202-216): regularized
incomplete beta with the `x = 0` / `x = 1` short-circuits and the converging
branch selection. -/
def incompleteBeta (P : Prims) (x a b : ℚ) : ℚ :=
  if x = 0 then 0
  else if x = 1 then 1
  else
    let bt := P.exp (logGamma P (a + b) - logGamma P a - logGamma P b +
      a * P.log x + b * P.log (1 - x))
    if x < (a + 1) / (a + b + 2) then bt * betaCF x a b / a
    else 1 - bt * betaCF (1 - x) b a / b

/-- `tDistCDF` (src/core/welch-t-test.ts lines 88-106): normal approximation
for `df > 200`, otherwise the incomplete-beta form with the tail chosen by the
sign of `t`. -/
def tDistCDF (P : Prims) (t df : ℚ) : ℚ :=
  if 200 < df then normalCDF P t
  else
    let x := df / (df + t * t)
    let beta := incompleteBeta P x (df / 2) 0.5
    if 0 ≤ t then 1 - beta / 2 else beta / 2

/-- `tDistPDF` (src/core/welch-t-test.ts lines 128-133). -/
def tDistPDF (P : Prims) (t df : ℚ) : ℚ :=
  let coef := P.exp (logGamma P ((df + 1) / 2) - logGamma P (df / 2) -
    0.5 * P.log (df * P.pi))
  coef * P.rpow (1 + t * t / df) (-((df + 1) / 2))

/-- The Newton-Raphson loop of `tDistQuantile`: at most `fuel` steps, stopping
early when the density underflows (`pdf < 1e-10` breaks). -/
def tQuantileLoop (P : Prims) (p df : ℚ) : ℕ → ℚ → ℚ
  | 0, x => x
  | fuel + 1, x =>
    let cdf := tDistCDF P x df
    let pdf := tDistPDF P x df
    if pdf < 1e-10 then x
    else tQuantileLoop P p df fuel (x - (cdf - p) / pdf)

/-- `tDistQuantile` (src/core/welch-t-test.ts lines 111-126): normal
approximation for `df > 200`, otherwise ten Newton-Raphson steps from the
normal seed. -/
def tDistQuantile (P : Prims) (p df : ℚ) : ℚ :=
  if 200 < df then normalQuantile P p
  else tQuantileLoop P p df 10 (normalQuantile P p)

/-! ## Outlier detection (src/core/outliers.ts) -/

/-- The z-score flag of `detectOutliers`: `Math.abs(z) > threshold` for
`z = (x − mean)/stdDev`. -/
def outlierFlag (mean stdDev threshold x : ℚ) : Bool :=
  decide (threshold < |(x - mean) / stdDev|)

/-- `detectOutliers` (src/core/outliers.ts lines 99-149): the z-score method.
`n < 3` and `stdDev < 1e-10` return the degenerate no-outlier record; otherwise
each element is flagged by `|z| > threshold` and `tooMany` is
`flagged/n > 0.1`.  The `forEach` partition over `(index, value)` pairs is
rendered with `List.enum`. -/
def detectOutliers (P : Prims) (samples : List ℚ) (threshold : ℚ) : OutlierResult :=
  if samples.length < 3 then
    { indices := [], values := [], cleaned := samples, count := 0, tooMany := false,
      zScores := samples.map fun _ => 0 }
  else
    let mean := ssMean samples
    let stdDev := ssSampleStandardDeviation P samples
    if stdDev < 1e-10 then
      { indices := [], values := [], cleaned := samples, count := 0, tooMany := false,
        zScores := samples.map fun _ => 0 }
    else
      let zScores := samples.map fun s => (s - mean) / stdDev
      let idxed := samples.enum
      let flagged := idxed.filter fun p => outlierFlag mean stdDev threshold p.2
      let indices := flagged.map Prod.fst
      let values := flagged.map Prod.snd
      let cleaned := (idxed.filter fun p => !outlierFlag mean stdDev threshold p.2).map Prod.snd
      { indices := indices, values := values, cleaned := cleaned,
        count := indices.length,
        tooMany := decide ((0.1 : ℚ) < (indices.length : ℚ) / (samples.length : ℚ)),
        zScores := zScores }

/-! ## Shapiro-Wilk normality test (src/core/normality.ts) -/

/-- The tabulated small-sample coefficients of `getShapiroWilkCoefficients`
(Shapiro and Wilk 1965, src/core/normality.ts lines 112-122). -/
def shapiroWilkCoefficientTable (n : ℕ) : Option (List ℚ) :=
  match n with
  | 3 => some [0.7071]
  | 4 => some [0.6872, 0.1677]
  | 5 => some [0.6646, 0.2413]
  | 6 => some [0.6431, 0.2806, 0.0875]
  | 7 => some [0.6233, 0.3031, 0.1401]
  | 8 => some [0.6052, 0.3164, 0.1743, 0.0561]
  | 9 => some [0.5888, 0.3244, 0.1976, 0.0947]
  | 10 => some [0.5739, 0.3291, 0.2141, 0.1224, 0.0399]
  | 11 => some [0.5601, 0.3315, 0.2260, 0.1429, 0.0695]
  | _ => none

/-- `approximateCoefficients` (src/core/normality.ts lines 135-171): Blom
order-statistic scores, paired differences over `2‖m‖`, then renormalization
to unit norm when the norm is positive. -/
def approximateCoefficients (P : Prims) (n : ℕ) : List ℚ :=
  let halfN := n / 2
  let m := (List.range n).map fun i =>
    normalQuantile P ((((i + 1 : ℕ) : ℚ) - 0.375) / ((n : ℚ) + 0.25))
  let mSumSq := (m.map fun mi => mi * mi).sum
  let mNorm := P.sqrt mSumSq
  let a := (List.range halfN).map fun i =>
    match m.get? i, m.get? (n - 1 - i) with
    | some mLow, some mHigh => (mHigh - mLow) / (2 * mNorm)
    | _, _ => 0
  let aSumSq := (a.map fun ai => ai * ai).sum
  let aNorm := P.sqrt aSumSq
  if 0 < aNorm then a.map fun ai => ai / aNorm else a

/-- `getShapiroWilkCoefficients` (src/core/normality.ts lines 109-130):
`n ≤ 11` looks up the table, otherwise Royston's approximation. -/
def getShapiroWilkCoefficients (P : Prims) (n : ℕ) : List ℚ :=
  if n ≤ 11 then
    match shapiroWilkCoefficientTable n with
    | some t => t
    | none => approximateCoefficients P n
  else approximateCoefficients P n

/-- The final clamp of `shapiroWilkPValue`: `Math.max(0, Math.min(1, p))`. -/
def swClamp (p : ℚ) : ℚ :=
  max 0 (min 1 p)

/-- `shapiroWilkPValue` (src/core/normality.ts lines 176-213): Royston's
normalizing transform, small-sample (`n ≤ 11`) and large-sample polynomials,
with the `W ≥ 1`, `W ≤ 0` and `inner ≤ 0` early returns and the final clamp
into `[0, 1]`. -/
def shapiroWilkPValue (P : Prims) (W : ℚ) (n : ℕ) : ℚ :=
  if 1 ≤ W then 1
  else if W ≤ 0 then 0
  else if n ≤ 11 then
    let gamma := 0.459 * (n : ℚ) - 2.273
    let inner := gamma - P.log (1 - W)
    if inner ≤ 0 then 0
    else
      let w := -(P.log inner)
      let mu := -0.0006714 * (n : ℚ) ^ 3 + 0.025054 * (n : ℚ) ^ 2 -
        0.39978 * (n : ℚ) + 0.5440
      let sigma := P.exp (-0.0020322 * (n : ℚ) ^ 3 + 0.062767 * (n : ℚ) ^ 2 -
        0.77857 * (n : ℚ) + 1.3822)
      let z := (w - mu) / sigma
      swClamp (1 - normalCDF P z)
  else
    let logN := P.log (n : ℚ)
    let w := P.log (1 - W)
    let mu := 0.0038915 * logN ^ 3 - 0.083751 * logN ^ 2 - 0.31082 * logN - 1.5861
    let sigma := P.exp (0.0030302 * logN ^ 2 - 0.082676 * logN - 0.4803)
    let z := (w - mu) / sigma
    swClamp (1 - normalCDF P z)

/-- The denominator of the W statistic as the source computes it: the sum of
squared deviations of the (sorted) sample from its mean
(src/core/normality.ts lines 47-51). -/
def swSumSquaredDev (samples : List ℚ) : ℚ :=
  let sorted := List.insertionSort (fun x y : ℚ => x ≤ y) samples
  let mean := ssMean sorted
  (sorted.map fun x => (x - mean) ^ 2).sum

/-- The numerator accumulation of the W statistic: `b = Σ a_i·(x_{n−1−i} −
x_i)` over the first `⌊n/2⌋` pairs, with the source's defined-ness guard on
every lookup (src/core/normality.ts lines 68-77). -/
def swNumerator (a sorted : List ℚ) (n : ℕ) : ℚ :=
  (List.range (n / 2)).foldl
    (fun acc i =>
      match a.get? i, sorted.get? (n - 1 - i), sorted.get? i with
      | some ai, some xHigh, some xLow => acc + ai * (xHigh - xLow)
      | _, _, _ => acc)
    0

/-- `shapiroWilkTest` (src/core/normality.ts lines 22-101): the `n < 3`,
`n > 5000` and zero-variance short-circuits, the clamped W statistic, Royston
p-value, `isNormal = p ≥ 0.05` and the banded interpretation text. -/
def shapiroWilkTest (P : Prims) (fmt : ℚ → ℕ → String) (samples : List ℚ) :
    NormalityTestResult :=
  let n := samples.length
  if n < 3 then
    { W := 1, pValue := 1, isNormal := true,
      interpretation := "Insufficient data (n < 3) - cannot test normality", n := n }
  else if 5000 < n then
    { W := 0, pValue := 0, isNormal := false,
      interpretation := "Sample too large (n > 5000) - Shapiro-Wilk not applicable", n := n }
  else
    let sorted := List.insertionSort (fun x y : ℚ => x ≤ y) samples
    let sumSquaredDev := swSumSquaredDev samples
    if sumSquaredDev < 1e-10 then
      { W := 1, pValue := 1, isNormal := true,
        interpretation := "All values identical - trivially normal", n := n }
    else
      let a := getShapiroWilkCoefficients P n
      let b := swNumerator a sorted n
      let W := max 0 (min 1 (b * b / sumSquaredDev))
      let pValue := shapiroWilkPValue P W n
      let isNormal := decide (0.05 ≤ pValue)
      let interpretation :=
        if 0.10 ≤ pValue then
          "Data appears normally distributed (W=" ++ fmt W 4 ++ ", p=" ++ fmt pValue 4 ++ ")"
        else if 0.05 ≤ pValue then
          "Marginal normality (W=" ++ fmt W 4 ++ ", p=" ++ fmt pValue 4 ++
            ") - proceed with caution"
        else if 0.01 ≤ pValue then
          "Non-normal distribution (W=" ++ fmt W 4 ++ ", p=" ++ fmt pValue 4 ++
            ") - consider non-parametric test"
        else
          "Strongly non-normal (W=" ++ fmt W 4 ++ ", p=" ++ fmt pValue 4 ++
            ") - use non-parametric test"
      { W := W, pValue := pValue, isNormal := isNormal,
        interpretation := interpretation, n := n }

/-! ## Welch's t-test (src/core/welch-t-test.ts) -/

/-- `getEffectSizeLabel` (src/core/welch-t-test.ts lines 73-79): the Cohen's-d
bands. -/
def getEffectSizeLabel (d : ℚ) : EffectSizeLabel :=
  if |d| < 0.2 then .negligible
  else if |d| < 0.5 then .small
  else if |d| < 0.8 then .medium
  else .large

/-- `welchTTest` (src/core/welch-t-test.ts lines 18-68): sample variances,
Welch t statistic, Welch-Satterthwaite degrees of freedom, two-tailed p-value,
pooled-deviation Cohen's d, and the `meanDiff ± tCrit·se` confidence
interval. -/
def welchTTest (P : Prims) (sampleA sampleB : List ℚ) (alpha : ℚ) : WelchTestResult :=
  let n1 : ℚ := (sampleA.length : ℚ)
  let n2 : ℚ := (sampleB.length : ℚ)
  let m1 := ssMean sampleA
  let m2 := ssMean sampleB
  let v1 := ssSampleVariance sampleA
  let v2 := ssSampleVariance sampleB
  let se := P.sqrt (v1 / n1 + v2 / n2)
  let t := (m1 - m2) / se
  let num := (v1 / n1 + v2 / n2) ^ 2
  let denom := (v1 / n1) ^ 2 / (n1 - 1) + (v2 / n2) ^ 2 / (n2 - 1)
  let df := num / denom
  let pValue := 2 * (1 - tDistCDF P |t| df)
  let pooledStd := P.sqrt (((n1 - 1) * v1 + (n2 - 1) * v2) / (n1 + n2 - 2))
  let effectSize := (m1 - m2) / pooledStd
  let tCrit := tDistQuantile P (1 - alpha / 2) df
  let meanDiff := m1 - m2
  { t := t, df := df, pValue := pValue, significant := decide (pValue < alpha),
    effectSize := effectSize, effectSizeLabel := getEffectSizeLabel effectSize,
    meanDiff := meanDiff, ci95 := (meanDiff - tCrit * se, meanDiff + tCrit * se) }

/-! ## Mann-Whitney U test (src/core/mann-whitney.ts) -/

/-- The block-processing loop of `assignRanks` (src/core/mann-whitney.ts lines
85-109): starting at position `i`, each maximal run of equal values — the
source's inner `while` — receives the average `(i + 1 + j) / 2` of the ranks
it occupies, where `j` is the position one past the run. -/
def rankBlocks (i : ℕ) (l : List ℚ) : List ℚ :=
  match l with
  | [] => []
  | v :: rest =>
    let k := (rest.takeWhile fun w => w == v).length
    List.replicate (k + 1) (((i : ℚ) + 1 + ((i + k + 1 : ℕ) : ℚ)) / 2) ++
      rankBlocks (i + k + 1) (rest.drop k)
termination_by l.length
decreasing_by simp [List.length_drop]; omega

/-- `assignRanks` (src/core/mann-whitney.ts lines 85-109). -/
def assignRanks (values : List ℚ) : List ℚ :=
  rankBlocks 0 values

/-- The tagged, value-sorted combination of the two samples
(src/core/mann-whitney.ts lines 29-35); group A is `true`. -/
def mwCombined (sampleA sampleB : List ℚ) : List (ℚ × Bool) :=
  List.insertionSort (fun p q : ℚ × Bool => p.1 ≤ q.1)
    ((sampleA.map fun value => (value, true)) ++ (sampleB.map fun value => (value, false)))

/-- The per-group rank sum of the `forEach` at src/core/mann-whitney.ts lines
44-53: the sum of the ranks at the positions whose tag is `g`. -/
def mwRankSum (sampleA sampleB : List ℚ) (g : Bool) : ℚ :=
  let combined := mwCombined sampleA sampleB
  let ranks := assignRanks (combined.map Prod.fst)
  (((combined.zip ranks).filter fun pr => pr.1.2 == g).map Prod.snd).sum

/-- The two U statistics and their minimum
(src/core/mann-whitney.ts lines 56-58). -/
def mwU1 (sampleA sampleB : List ℚ) : ℚ :=
  mwRankSum sampleA sampleB true -
    (sampleA.length : ℚ) * ((sampleA.length : ℚ) + 1) / 2

/-- `U2 = R2 − n2(n2+1)/2`. -/
def mwU2 (sampleA sampleB : List ℚ) : ℚ :=
  mwRankSum sampleA sampleB false -
    (sampleB.length : ℚ) * ((sampleB.length : ℚ) + 1) / 2

/-- `U = min(U1, U2)`. -/
def mwU (sampleA sampleB : List ℚ) : ℚ :=
  min (mwU1 sampleA sampleB) (mwU2 sampleA sampleB)

/-- The continuity-corrected standardized statistic of `mannWhitneyU`
(src/core/mann-whitney.ts lines 62-66): `z = (U − n1·n2/2 + 0.5)/stdU`. -/
def mannWhitneyZ (P : Prims) (sampleA sampleB : List ℚ) : ℚ :=
  let n1 : ℚ := (sampleA.length : ℚ)
  let n2 : ℚ := (sampleB.length : ℚ)
  let meanU := n1 * n2 / 2
  let stdU := P.sqrt (n1 * n2 * (n1 + n2 + 1) / 12)
  (mwU sampleA sampleB - meanU + 0.5) / stdU

/-- `getEffectSizeLabelRankBiserial` (src/core/mann-whitney.ts lines 115-121). -/
def getEffectSizeLabelRankBiserial (r : ℚ) : EffectSizeLabel :=
  if |r| < 0.1 then .negligible
  else if |r| < 0.3 then .small
  else if |r| < 0.5 then .medium
  else .large

/-- `mannWhitneyU` (src/core/mann-whitney.ts lines 20-80): tie-averaged ranks,
`U = min(U1, U2)`, the continuity-corrected normal approximation
`p = 2·Φ(−|z|)`, and the rank-biserial effect size `1 − 2U/(n1·n2)`. -/
def mannWhitneyU (P : Prims) (sampleA sampleB : List ℚ) (alpha : ℚ) : MannWhitneyResult :=
  let n1 : ℚ := (sampleA.length : ℚ)
  let n2 : ℚ := (sampleB.length : ℚ)
  let U := mwU sampleA sampleB
  let z := mannWhitneyZ P sampleA sampleB
  let pValue := 2 * normalCDF P (-|z|)
  let effectSize := 1 - 2 * U / (n1 * n2)
  { U := U, pValue := pValue, significant := decide (pValue < alpha),
    effectSize := effectSize,
    effectSizeLabel := getEffectSizeLabelRankBiserial effectSize }

/-! ## Per-sample diagnostics (src/diagnostics/sample-quality.ts) -/

/-- `getSampleDiagnostics` (src/diagnostics/sample-quality.ts lines 158-198):
basic statistics plus the outlier and normality records, with the `n = 0`
placeholder. -/
def getSampleDiagnostics (P : Prims) (fmt : ℚ → ℕ → String) (samples : List ℚ)
    (outlierThreshold : ℚ) : SampleDiagnostics :=
  let n := samples.length
  if n = 0 then
    { n := 0, mean := 0, stdDev := 0, min := 0, max := 0,
      outliers := { indices := [], values := [], cleaned := [], count := 0,
                    tooMany := false, zScores := [] },
      normality := { W := 1, pValue := 1, isNormal := true,
                     interpretation := "No data", n := 0 } }
  else
    { n := n, mean := ssMean samples,
      stdDev := if 1 < n then ssSampleStandardDeviation P samples else 0,
      min := ssMin samples, max := ssMax samples,
      outliers := detectOutliers P samples outlierThreshold,
      normality := shapiroWilkTest P fmt samples }

/-! ## The comparison pipeline (src/compare.ts) -/

/-- The warning pushed when a sample exceeds the 10% outlier budget
(src/compare.ts lines 694 and 702). -/
def warnTooManyOutliers (label : String) (diag : SampleDiagnostics) : String :=
  label ++ " has >10% outliers (" ++ toString diag.outliers.count ++ "/" ++
    toString diag.n ++ ")."

/-- The warning pushed for a present-but-not-excessive outlier count
(src/compare.ts lines 697 and 705). -/
def warnSomeOutliers (fmt : ℚ → ℕ → String) (label : String)
    (diag : SampleDiagnostics) : String :=
  label ++ " has " ++ toString diag.outliers.count ++ " outlier(s): [" ++
    String.intercalate ", " (diag.outliers.values.map fun v => fmt v 1) ++ "]."

/-- The warning pushed for a failed normality test (src/compare.ts lines 711
and 716). -/
def warnNonNormal (fmt : ℚ → ℕ → String) (label : String)
    (diag : SampleDiagnostics) : String :=
  label ++ " deviates from normality (W=" ++ fmt diag.normality.W 3 ++
    ", p=" ++ fmt diag.normality.pValue 4 ++ ")."

/-- The result object of `assessDataQuality`. -/
structure QualityAssessment where
  overallQuality : DataQuality
  warnings : List String
  recommendation : Recommendation
deriving DecidableEq

/-- `assessDataQuality` (src/compare.ts lines 684-731).  The source mutates a
`warnings` array and a `recommendation` variable through four sequential
checks (outliers A, outliers B, normality A, normality B); each `sK` below is
the state after check `K`, with the source's guard `if (recommendation ===
'proceed') recommendation = 'caution'` kept verbatim. -/
def assessDataQuality (fmt : ℚ → ℕ → String) (diagA diagB : SampleDiagnostics)
    (labels : String × String) : QualityAssessment :=
  let s0 : List String × Recommendation := ([], .proceed)
  let s1 :=
    if diagA.outliers.tooMany then
      (s0.1 ++ [warnTooManyOutliers labels.1 diagA], Recommendation.useNonparametric)
    else if 0 < diagA.outliers.count then
      (s0.1 ++ [warnSomeOutliers fmt labels.1 diagA],
        if s0.2 = .proceed then .caution else s0.2)
    else s0
  let s2 :=
    if diagB.outliers.tooMany then
      (s1.1 ++ [warnTooManyOutliers labels.2 diagB], Recommendation.useNonparametric)
    else if 0 < diagB.outliers.count then
      (s1.1 ++ [warnSomeOutliers fmt labels.2 diagB],
        if s1.2 = .proceed then .caution else s1.2)
    else s1
  let s3 :=
    if !diagA.normality.isNormal then
      (s2.1 ++ [warnNonNormal fmt labels.1 diagA], Recommendation.useNonparametric)
    else s2
  let s4 :=
    if !diagB.normality.isNormal then
      (s3.1 ++ [warnNonNormal fmt labels.2 diagB], Recommendation.useNonparametric)
    else s3
  let overallQuality :=
    if s4.2 = .useNonparametric then DataQuality.poor
    else if s4.2 = .caution then DataQuality.acceptable
    else DataQuality.good
  { overallQuality := overallQuality, warnings := s4.1, recommendation := s4.2 }

/-- `determineVerdict` (src/compare.ts lines 736-761): the three-gate check.
Gate 1 is the chosen test's own significance flag, gate 2 compares the
absolute effect size against `0.3` for rank-biserial and against the
configured Cohen's-d minimum otherwise, gate 3 compares the absolute raw
difference against the practical threshold; the first failure short-circuits
to `not-significant`. -/
def determineVerdict (isStatisticallySignificant : Bool)
    (absEffectSize absDifference : ℚ) (config : ResolvedCompareConfig)
    (isRankBiserial : Bool) : Verdict :=
  if !isStatisticallySignificant then .notSignificant
  else
    let effectThreshold := if isRankBiserial then (0.3 : ℚ) else config.effectSizeMinimum
    if absEffectSize < effectThreshold then .notSignificant
    else if absDifference < config.practicalThreshold then .notSignificant
    else .significant

/-- The string value of an `EffectSizeLabel` (in TypeScript the label is
itself a string literal union). -/
def effectLabelText : EffectSizeLabel → String
  | .negligible => "negligible"
  | .small => "small"
  | .medium => "medium"
  | .large => "large"

/-- `buildInterpretation` (src/compare.ts lines 766-827): the templated
plain-language summary.  String-typographic note: the source's ASCII
apostrophes are rendered as the typographic character. -/
def buildInterpretation (fmt : ℚ → ℕ → String) (evidence : Evidence)
    (verdict : Verdict) (recommendation : Recommendation)
    (config : ResolvedCompareConfig) : String :=
  let labelA := config.labels.1
  let labelB := config.labels.2
  let diff := evidence.difference
  let absDiff := |diff|
  let direction := if 0 < diff then "higher" else "lower"
  let pct := fmt |evidence.differencePercent| 1
  let mainFinding := labelA ++ " is " ++ fmt absDiff 1 ++ " " ++ direction ++
    " than " ++ labelB ++ " (" ++ pct ++ "% difference)."
  let statDetails :=
    if evidence.testUsed = .welch then
      ["Welch’s t-test: t=" ++ fmt evidence.testStatistic 3 ++ ", p=" ++
          fmt evidence.pValue 4 ++ ", Cohen’s d=" ++ fmt evidence.effectSize 2 ++
          " (" ++ effectLabelText evidence.effectSizeLabel ++ ")."] ++
        (match evidence.ci95 with
          | some ci => ["95% CI: [" ++ fmt ci.1 1 ++ ", " ++ fmt ci.2 1 ++ "]."]
          | none => [])
    else
      ["Mann-Whitney U: U=" ++ fmt evidence.testStatistic 1 ++ ", p=" ++
          fmt evidence.pValue 4 ++ ", r=" ++ fmt evidence.effectSize 2 ++
          " (" ++ effectLabelText evidence.effectSizeLabel ++ ")."]
  let verdictText :=
    match verdict with
    | .significant =>
      "VERDICT: Significant difference. All three gates passed (p < " ++
        toString config.alpha ++ ", effect ≥ " ++ toString config.effectSizeMinimum ++
        ", Δ ≥ " ++ toString config.practicalThreshold ++ ")."
    | .notSignificant =>
      "VERDICT: Not significant. Failed one or more gates (threshold: p < " ++
        toString config.alpha ++ ", effect ≥ " ++ toString config.effectSizeMinimum ++
        ", Δ ≥ " ++ toString config.practicalThreshold ++ ")."
    | .dataQualityIssue =>
      "VERDICT: Used non-parametric test due to data quality issues. Interpret with caution."
    | .insufficientData => "VERDICT: Cannot determine - insufficient data."
  let note :=
    if recommendation ≠ .proceed then
      ["Note: Data quality is " ++
        (if recommendation = .caution then "acceptable but with warnings" else "poor") ++ "."]
    else []
  String.intercalate " " ([mainFinding] ++ statDetails ++ [verdictText] ++ note)

/-- `createInsufficientDataResult` (src/compare.ts lines 646-679): the
terminal result of the input gate, with placeholder evidence. -/
def createInsufficientDataResult (P : Prims) (fmt : ℚ → ℕ → String)
    (sampleA sampleB : List ℚ) (config : ResolvedCompareConfig) : CompareResult :=
  let diagA := getSampleDiagnostics P fmt sampleA config.outlierThreshold
  let diagB := getSampleDiagnostics P fmt sampleB config.outlierThreshold
  { verdict := .insufficientData
    recommendation := .caution
    evidence :=
      { meanA := diagA.mean, meanB := diagB.mean,
        difference := diagA.mean - diagB.mean, differencePercent := 0,
        pValue := 1, testStatistic := 0, degreesOfFreedom := 0, effectSize := 0,
        effectSizeLabel := .negligible, ci95 := none, testUsed := .welch }
    diagnostics :=
      { sampleA := diagA, sampleB := diagB, overallQuality := .poor,
        warnings := ["Insufficient data: " ++ config.labels.1 ++ " has " ++
          toString sampleA.length ++ " samples, " ++ config.labels.2 ++ " has " ++
          toString sampleB.length ++ " samples. Need at least 3 each."] }
    interpretation := "Cannot perform comparison: need at least 3 samples per condition. " ++
      config.labels.1 ++ " has " ++ toString sampleA.length ++ ", " ++
      config.labels.2 ++ " has " ++ toString sampleB.length ++ "."
    config := config }

/-- `compareConditions` (src/compare.ts lines 528-641): default merge, input
gate, per-sample diagnostics, quality assessment, test selection
(Mann-Whitney when the recommendation is `use-nonparametric`, Welch
otherwise), the three-gate verdict, and the rendered interpretation. -/
def compareConditions (P : Prims) (fmt : ℚ → ℕ → String)
    (sampleA sampleB : List ℚ) (config : CompareConfig) : CompareResult :=
  let fullConfig := resolveConfig config
  if sampleA.length < 3 ∨ sampleB.length < 3 then
    createInsufficientDataResult P fmt sampleA sampleB fullConfig
  else
    let diagA := getSampleDiagnostics P fmt sampleA fullConfig.outlierThreshold
    let diagB := getSampleDiagnostics P fmt sampleB fullConfig.outlierThreshold
    let dq := assessDataQuality fmt diagA diagB fullConfig.labels
    let useNonParametric := dq.recommendation = .useNonparametric
    if useNonParametric then
      let result := mannWhitneyU P sampleA sampleB fullConfig.alpha
      let evidence : Evidence :=
        { meanA := diagA.mean, meanB := diagB.mean,
          difference := diagA.mean - diagB.mean,
          differencePercent :=
            if diagB.mean ≠ 0 then (diagA.mean - diagB.mean) / diagB.mean * 100 else 0,
          pValue := result.pValue, testStatistic := result.U,
          degreesOfFreedom := 0, effectSize := result.effectSize,
          effectSizeLabel := result.effectSizeLabel, ci95 := none,
          testUsed := .mannWhitney }
      let testVerdict := determineVerdict result.significant (|result.effectSize|)
        (|diagA.mean - diagB.mean|) fullConfig true
      let diagnostics : ComparisonDiagnostics :=
        { sampleA := diagA, sampleB := diagB,
          overallQuality := dq.overallQuality, warnings := dq.warnings }
      { verdict := testVerdict, recommendation := dq.recommendation,
        evidence := evidence, diagnostics := diagnostics,
        interpretation :=
          buildInterpretation fmt evidence testVerdict dq.recommendation fullConfig,
        config := fullConfig }
    else
      let result := welchTTest P sampleA sampleB fullConfig.alpha
      let evidence : Evidence :=
        { meanA := diagA.mean, meanB := diagB.mean, difference := result.meanDiff,
          differencePercent :=
            if diagB.mean ≠ 0 then result.meanDiff / diagB.mean * 100 else 0,
          pValue := result.pValue, testStatistic := result.t,
          degreesOfFreedom := result.df, effectSize := result.effectSize,
          effectSizeLabel := result.effectSizeLabel, ci95 := some result.ci95,
          testUsed := .welch }
      let testVerdict := determineVerdict result.significant (|result.effectSize|)
        (|result.meanDiff|) fullConfig false
      let diagnostics : ComparisonDiagnostics :=
        { sampleA := diagA, sampleB := diagB,
          overallQuality := dq.overallQuality, warnings := dq.warnings }
      { verdict := testVerdict, recommendation := dq.recommendation,
        evidence := evidence, diagnostics := diagnostics,
        interpretation :=
          buildInterpretation fmt evidence testVerdict dq.recommendation fullConfig,
        config := fullConfig }

/-! ## A concrete interpretation of the environment, for witnesses

The theorems below are quantified over every `Prims` interpretation; the
instance here is a simple computable one satisfying the structure's sign
facts, used to instantiate theorems at concrete inputs. -/

/-- A computable `Prims` interpretation: enough to satisfy the sign facts. -/
def primsW : Prims where
  sqrt := fun x => if 0 < x then 1 else 0
  exp := fun x => if x < 0 then 1 / 2 else 1
  log := fun _ => 0
  sin := fun _ => 0
  pi := 3
  rpow := fun _ _ => 1
  sqrt_nonneg := by
    intro x _
    dsimp only
    split <;> norm_num
  sqrt_pos := by
    intro x hx
    simp [hx]
  exp_pos := by
    intro x
    dsimp only
    split <;> norm_num
  exp_zero := by norm_num
  exp_lt_one := by
    intro x hx
    simp only [if_pos hx]
    norm_num

/-- A trivial `toFixed` interpretation for witnesses. -/
def fmtW : ℚ → ℕ → String :=
  fun _ _ => ""

/-! ## The three-gate verdict: helper lemmas -/

/-- `determineVerdict` can only produce `significant` or `not-significant`. -/
theorem determineVerdict_mem (sig : Bool) (absE absD : ℚ)
    (config : ResolvedCompareConfig) (rb : Bool) :
    determineVerdict sig absE absD config rb = .significant ∨
      determineVerdict sig absE absD config rb = .notSignificant := by
  cases sig with
  | false => exact Or.inr (by simp [determineVerdict])
  | true =>
    by_cases h2 : absE < (if rb then (0.3 : ℚ) else config.effectSizeMinimum)
    · exact Or.inr (by simp [determineVerdict, h2])
    · by_cases h3 : absD < config.practicalThreshold
      · exact Or.inr (by simp [determineVerdict, h2, h3])
      · exact Or.inl (by simp [determineVerdict, h2, h3])

/-- `determineVerdict` is `significant` exactly when all three gates pass. -/
theorem determineVerdict_eq_significant (sig : Bool) (absE absD : ℚ)
    (config : ResolvedCompareConfig) (rb : Bool) :
    determineVerdict sig absE absD config rb = .significant ↔
      sig = true ∧
        (if rb then (0.3 : ℚ) else config.effectSizeMinimum) ≤ absE ∧
        config.practicalThreshold ≤ absD := by
  cases sig with
  | false => simp [determineVerdict]
  | true =>
    by_cases h2 : absE < (if rb then (0.3 : ℚ) else config.effectSizeMinimum)
    · simp [determineVerdict, h2, not_le.mpr h2]
    · by_cases h3 : absD < config.practicalThreshold
      · simp [determineVerdict, h2, h3, not_le.mpr h3]
      · simp [determineVerdict, h2, h3, le_of_not_lt h2, le_of_not_lt h3]

/-! ## C3: the insufficient-data input gate -/

/-- C3: when either sample has fewer than three observations,
`compareConditions` returns verdict `insufficient-data` with recommendation
`caution`, a single warning citing the required versus actual sample sizes,
and the placeholder evidence record (`pValue = 1`, zero statistic, zero
degrees of freedom, zero effect, no confidence interval) — no statistical
test contributes anything to the result. -/
theorem compareConditions_insufficient_data (P : Prims) (fmt : ℚ → ℕ → String)
    (sampleA sampleB : List ℚ) (config : CompareConfig)
    (h : sampleA.length < 3 ∨ sampleB.length < 3) :
    (compareConditions P fmt sampleA sampleB config).verdict = .insufficientData ∧
    (compareConditions P fmt sampleA sampleB config).recommendation = .caution ∧
    (compareConditions P fmt sampleA sampleB config).diagnostics.warnings =
      ["Insufficient data: " ++ (resolveConfig config).labels.1 ++ " has " ++
        toString sampleA.length ++ " samples, " ++ (resolveConfig config).labels.2 ++
        " has " ++ toString sampleB.length ++ " samples. Need at least 3 each."] ∧
    (compareConditions P fmt sampleA sampleB config).evidence.pValue = 1 ∧
    (compareConditions P fmt sampleA sampleB config).evidence.testStatistic = 0 ∧
    (compareConditions P fmt sampleA sampleB config).evidence.degreesOfFreedom = 0 ∧
    (compareConditions P fmt sampleA sampleB config).evidence.effectSize = 0 ∧
    (compareConditions P fmt sampleA sampleB config).evidence.ci95 = none := by
  unfold compareConditions
  rw [if_pos h]
  unfold createInsufficientDataResult
  exact ⟨rfl, rfl, rfl, rfl, rfl, rfl, rfl, rfl⟩

/-- Witness for C3 at the spec's own example `[1,2]` vs `[3,4]`. -/
theorem compareConditions_insufficient_data_witness :
    (compareConditions primsW fmtW [1, 2] [3, 4]
      { practicalThreshold := 1, alpha := none, effectSizeMinimum := none,
        outlierThreshold := none, labels := none }).verdict = .insufficientData :=
  (compareConditions_insufficient_data primsW fmtW [1, 2] [3, 4]
    { practicalThreshold := 1, alpha := none, effectSizeMinimum := none,
      outlierThreshold := none, labels := none } (Or.inl (by decide))).1

/-! ## C4: Shapiro-Wilk range and precondition handling -/

/-- The clamp `max 0 (min 1 ·)` lands in `[0, 1]`. -/
theorem swClamp_mem (p : ℚ) : 0 ≤ swClamp p ∧ swClamp p ≤ 1 :=
  ⟨le_max_left 0 _, max_le (by norm_num) (min_le_left 1 _)⟩

/-- `shapiroWilkPValue` always lands in `[0, 1]`. -/
theorem shapiroWilkPValue_mem (P : Prims) (W : ℚ) (n : ℕ) :
    0 ≤ shapiroWilkPValue P W n ∧ shapiroWilkPValue P W n ≤ 1 := by
  unfold shapiroWilkPValue
  split
  · norm_num
  · split
    · norm_num
    · split
      · dsimp only
        split
        · norm_num
        · exact swClamp_mem _
      · exact swClamp_mem _

/-- C4: `shapiroWilkTest` always returns `W ∈ [0,1]` and `pValue ∈ [0,1]`;
`n < 3` gives the trivially-normal record `(W, p) = (1, 1)`, `n > 5000` gives
the not-applicable record `(W, p) = (0, 0)`, and an in-range sample whose sum
of squared deviations is below `1e-10` (zero variance) again gives the
trivially-normal record.  The three precondition rules are the source's
ordered short-circuits, so the zero-variance rule is stated for samples that
pass the two size checks. -/
theorem shapiroWilkTest_range_and_guards (P : Prims) (fmt : ℚ → ℕ → String)
    (samples : List ℚ) :
    (0 ≤ (shapiroWilkTest P fmt samples).W ∧ (shapiroWilkTest P fmt samples).W ≤ 1 ∧
      0 ≤ (shapiroWilkTest P fmt samples).pValue ∧
      (shapiroWilkTest P fmt samples).pValue ≤ 1) ∧
    (samples.length < 3 →
      (shapiroWilkTest P fmt samples).W = 1 ∧
      (shapiroWilkTest P fmt samples).pValue = 1 ∧
      (shapiroWilkTest P fmt samples).isNormal = true) ∧
    (5000 < samples.length →
      (shapiroWilkTest P fmt samples).W = 0 ∧
      (shapiroWilkTest P fmt samples).pValue = 0 ∧
      (shapiroWilkTest P fmt samples).isNormal = false) ∧
    (3 ≤ samples.length → samples.length ≤ 5000 → swSumSquaredDev samples < 1e-10 →
      (shapiroWilkTest P fmt samples).W = 1 ∧
      (shapiroWilkTest P fmt samples).pValue = 1 ∧
      (shapiroWilkTest P fmt samples).isNormal = true) := by
  by_cases h1 : samples.length < 3
  · refine ⟨?_, fun _ => ?_, fun h5 => absurd h5 (by omega), fun h3 => absurd h3 (by omega)⟩
    · simp [shapiroWilkTest, h1]
    · simp [shapiroWilkTest, h1]
  · by_cases h2 : 5000 < samples.length
    · refine ⟨?_, fun hlt => absurd hlt h1, fun _ => ?_, fun _ h5000 => absurd h2 (by omega)⟩
      · simp [shapiroWilkTest, h1, h2]
      · simp [shapiroWilkTest, h1, h2]
    · by_cases h3 : swSumSquaredDev samples < 1e-10
      · refine ⟨?_, fun hlt => absurd hlt h1, fun hgt => absurd hgt h2, fun _ _ _ => ?_⟩
        · simp [shapiroWilkTest, h1, h2, h3]
        · simp [shapiroWilkTest, h1, h2, h3]
      · refine ⟨?_, fun hlt => absurd hlt h1, fun hgt => absurd hgt h2,
          fun _ _ hz => absurd hz h3⟩
        simp only [shapiroWilkTest, if_neg h1, if_neg h2, if_neg h3]
        refine ⟨le_max_left 0 _, max_le (by norm_num) (min_le_left 1 _),
          (shapiroWilkPValue_mem P _ _).1, (shapiroWilkPValue_mem P _ _).2⟩

/-- Witness for C4: the three guard conclusions at concrete samples — a
two-element sample, a constant 5001-element sample (the `n > 5000` rule wins
over the zero-variance rule), and the constant three-element sample. -/
theorem shapiroWilkTest_range_and_guards_witness :
    (shapiroWilkTest primsW fmtW [1, 2]).W = 1 ∧
    (shapiroWilkTest primsW fmtW (List.replicate 5001 (0 : ℚ))).W = 0 ∧
    (shapiroWilkTest primsW fmtW [5, 5, 5]).W = 1 ∧
    (shapiroWilkTest primsW fmtW [5, 5, 5]).isNormal = true := by
  refine ⟨((shapiroWilkTest_range_and_guards primsW fmtW [1, 2]).2.1 (by decide)).1,
    ((shapiroWilkTest_range_and_guards primsW fmtW
      (List.replicate 5001 (0 : ℚ))).2.2.1
        (by rw [List.length_replicate]; norm_num)).1,
    ?_, ?_⟩
  · exact ((shapiroWilkTest_range_and_guards primsW fmtW [5, 5, 5]).2.2.2 (by decide)
      (by decide) (by norm_num [swSumSquaredDev, ssMean, List.insertionSort,
        List.orderedInsert])).1
  · exact ((shapiroWilkTest_range_and_guards primsW fmtW [5, 5, 5]).2.2.2 (by decide)
      (by decide) (by norm_num [swSumSquaredDev, ssMean, List.insertionSort,
        List.orderedInsert])).2.2

/-! ## C7: the z-score outlier detector -/

/-- Filtering an enumerated list on a property of the values and keeping the
values is filtering the values. -/
theorem enumFrom_filter_map_snd {α : Type} (f : α → Bool) :
    ∀ (n : ℕ) (l : List α),
      ((List.enumFrom n l).filter fun p => f p.2).map Prod.snd = l.filter f := by
  intro n l
  induction l generalizing n with
  | nil => rfl
  | cons a l ih =>
    simp only [List.enumFrom, List.filter_cons]
    cases hfa : f a <;> simp [hfa, ih]

/-- As `enumFrom_filter_map_snd`, with `List.enum`. -/
theorem enum_filter_map_snd {α : Type} (f : α → Bool) (l : List α) :
    ((l.enum.filter fun p => f p.2).map Prod.snd) = l.filter f :=
  enumFrom_filter_map_snd f 0 l

/-- C7: `detectOutliers` on a degenerate input (fewer than three observations,
or sample standard deviation below `1e-10`) returns no outliers, the untouched
sample and all-zero z-scores; otherwise it flags exactly the elements whose
`|z| = |(x − mean)/stdDev|` exceeds the threshold, `cleaned` keeps exactly the
others, `count` is the number flagged, and `tooMany` holds exactly when
`count/n > 0.1`. -/
theorem detectOutliers_characterization (P : Prims) (samples : List ℚ) (threshold : ℚ) :
    ((samples.length < 3 ∨ ssSampleStandardDeviation P samples < 1e-10) →
      (detectOutliers P samples threshold).indices = [] ∧
      (detectOutliers P samples threshold).values = [] ∧
      (detectOutliers P samples threshold).cleaned = samples ∧
      (detectOutliers P samples threshold).count = 0 ∧
      (detectOutliers P samples threshold).tooMany = false ∧
      (detectOutliers P samples threshold).zScores = samples.map fun _ => 0) ∧
    (3 ≤ samples.length → ¬ ssSampleStandardDeviation P samples < 1e-10 →
      (detectOutliers P samples threshold).values =
        samples.filter (outlierFlag (ssMean samples)
          (ssSampleStandardDeviation P samples) threshold) ∧
      (detectOutliers P samples threshold).cleaned =
        samples.filter (fun s => !outlierFlag (ssMean samples)
          (ssSampleStandardDeviation P samples) threshold s) ∧
      (detectOutliers P samples threshold).count =
        (detectOutliers P samples threshold).values.length ∧
      (detectOutliers P samples threshold).zScores =
        samples.map (fun s => (s - ssMean samples) /
          ssSampleStandardDeviation P samples) ∧
      ((detectOutliers P samples threshold).tooMany = true ↔
        (0.1 : ℚ) < ((detectOutliers P samples threshold).count : ℚ) /
          (samples.length : ℚ))) := by
  by_cases h1 : samples.length < 3
  · refine ⟨fun _ => ?_, fun h3 => absurd h3 (by omega)⟩
    simp [detectOutliers, h1]
  · by_cases h2 : ssSampleStandardDeviation P samples < 1e-10
    · refine ⟨fun _ => ?_, fun _ hns => absurd h2 hns⟩
      simp [detectOutliers, h1, h2]
    · refine ⟨fun hd => ?_, fun _ _ => ?_⟩
      · rcases hd with hd | hd
        · exact absurd hd h1
        · exact absurd hd h2
      · have hmap := enum_filter_map_snd
          (outlierFlag (ssMean samples) (ssSampleStandardDeviation P samples) threshold)
          samples
        have hmapn := enum_filter_map_snd
          (fun s => !outlierFlag (ssMean samples) (ssSampleStandardDeviation P samples)
            threshold s) samples
        have hlen : (List.filter (fun p => outlierFlag (ssMean samples)
              (ssSampleStandardDeviation P samples) threshold p.2)
              samples.enum).length =
            (List.filter (outlierFlag (ssMean samples)
              (ssSampleStandardDeviation P samples) threshold) samples).length := by
          rw [← hmap, List.length_map]
        refine ⟨?_, ?_, ?_, ?_, ?_⟩
        · simpa [detectOutliers, if_neg h1, if_neg h2] using hmap
        · simpa [detectOutliers, if_neg h1, if_neg h2] using hmapn
        · simp [detectOutliers, if_neg h1, if_neg h2, hlen]
        · simp [detectOutliers, if_neg h1, if_neg h2]
        · simp [detectOutliers, if_neg h1, if_neg h2, decide_eq_true_eq]

/-- Witness for C7: the degenerate branch at `[1, 2]` and the main branch at
`[0, 0, 3]` (standard deviation `1`, no element beyond `2.5` deviations). -/
theorem detectOutliers_characterization_witness :
    (detectOutliers primsW [1, 2] 2.5).cleaned = [1, 2] ∧
    (detectOutliers primsW [0, 0, 3] 2.5).values =
      List.filter (outlierFlag (ssMean [0, 0, 3])
        (ssSampleStandardDeviation primsW [0, 0, 3]) 2.5) [0, 0, 3] := by
  constructor
  · exact ((detectOutliers_characterization primsW [1, 2] 2.5).1 (Or.inl (by decide))).2.2.1
  · exact ((detectOutliers_characterization primsW [0, 0, 3] 2.5).2 (by decide)
      (by norm_num [ssSampleStandardDeviation, ssSampleVariance, ssMean, primsW])).1

/-! ## C8: symmetry of the t-distribution CDF -/

/-- `erf` unfolded to its closed form. -/
theorem erf_eq (P : Prims) (x : ℚ) :
    erf P x = (if 0 ≤ x then (1 : ℚ) else -1) *
      (1 - erfPoly (1 / (1 + 0.3275911 * |x|)) * P.exp (-(|x| * |x|))) := rfl

/-- The source's `erf` is odd away from `0` (at `0` the sign split keeps a
residual `1e-9`, which is what breaks exact symmetry there). -/
theorem erf_neg (P : Prims) (u : ℚ) (hu : u ≠ 0) : erf P (-u) = -(erf P u) := by
  rcases lt_or_gt_of_ne hu with h | h
  · rw [erf_eq, erf_eq, abs_neg, if_pos (by linarith : (0 : ℚ) ≤ -u),
      if_neg (not_le.mpr h)]
    ring
  · rw [erf_eq, erf_eq, abs_neg, if_neg (not_le.mpr (by linarith : -u < (0 : ℚ))),
      if_pos (le_of_lt h)]
    ring

/-- C8 (amended): `tDistCDF(t, df) = 1 − tDistCDF(−t, df)` holds exactly for
every `t ≠ 0` (both branches), and at `t = 0` whenever `df ≤ 200` (there the
incomplete-beta argument is exactly `1` and both sides are `1/2`).  The single
failure, `t = 0` with `df > 200`, is the counterexample recorded separately:
the `erf` approximation of the normal branch is not odd at `0`. -/
theorem tDistCDF_symmetry (P : Prims) (t df : ℚ) (hdf : 0 < df)
    (h : t ≠ 0 ∨ df ≤ 200) : tDistCDF P t df = 1 - tDistCDF P (-t) df := by
  by_cases h200 : 200 < df
  · have ht : t ≠ 0 := h.resolve_right (not_le.mpr h200)
    simp only [tDistCDF, if_pos h200, normalCDF]
    have harg : -t / P.sqrt 2 = -(t / P.sqrt 2) := by ring
    have hden : t / P.sqrt 2 ≠ 0 :=
      div_ne_zero ht (ne_of_gt (P.sqrt_pos 2 (by norm_num)))
    rw [harg, erf_neg P _ hden]
    ring
  · simp only [tDistCDF, if_neg h200, neg_mul_neg]
    rcases lt_trichotomy t 0 with ht | ht | ht
    · rw [if_neg (not_le.mpr ht), if_pos (by linarith : (0 : ℚ) ≤ -t)]
      ring
    · subst ht
      have hx : df / (df + 0 * 0) = 1 := by
        rw [mul_zero, add_zero, div_self (ne_of_gt hdf)]
      rw [hx]
      have hbeta : incompleteBeta P 1 (df / 2) 0.5 = 1 := by
        unfold incompleteBeta
        norm_num
      rw [hbeta]
      norm_num
    · rw [if_pos (le_of_lt ht), if_neg (not_le.mpr (by linarith : -t < (0 : ℚ)))]

/-- Witness for C8 at `t = 1`, `df = 5`. -/
theorem tDistCDF_symmetry_witness :
    tDistCDF primsW 1 5 = 1 - tDistCDF primsW (-1) 5 :=
  tDistCDF_symmetry primsW 1 5 (by norm_num) (Or.inl (by norm_num))

/-- Counterexample to C8 as frozen: at `t = 0`, `df = 201` the two sides
differ by `1e-9` — the normal branch's `erf(0)` is `10⁻⁹`, not `0`, under any
interpretation with `exp 0 = 1` (as `Math.exp` satisfies). -/
theorem tDistCDF_symmetry_counterexample :
    (0 : ℚ) < 201 ∧ tDistCDF primsW 0 201 ≠ 1 - tDistCDF primsW (-0) 201 := by
  constructor
  · norm_num
  · norm_num [tDistCDF, normalCDF, erf, erfPoly, primsW]

/-! ## C1 and C2: the main-path pipeline -/

/-- Abbreviation for statements: the diagnostics record `compareConditions`
computes for one sample (with the resolved outlier threshold). -/
def mainDiag (P : Prims) (fmt : ℚ → ℕ → String) (sample : List ℚ)
    (config : CompareConfig) : SampleDiagnostics :=
  getSampleDiagnostics P fmt sample (resolveConfig config).outlierThreshold

/-- Abbreviation for statements: the quality assessment `compareConditions`
computes on its main path. -/
def mainAssessment (P : Prims) (fmt : ℚ → ℕ → String) (sampleA sampleB : List ℚ)
    (config : CompareConfig) : QualityAssessment :=
  assessDataQuality fmt (mainDiag P fmt sampleA config) (mainDiag P fmt sampleB config)
    (resolveConfig config).labels

/-- The `significant` flag of `mannWhitneyU` is the comparison `p < α`. -/
theorem mannWhitneyU_significant_eq (P : Prims) (a b : List ℚ) (alpha : ℚ) :
    (mannWhitneyU P a b alpha).significant =
      decide ((mannWhitneyU P a b alpha).pValue < alpha) := rfl

/-- The `significant` flag of `welchTTest` is the comparison `p < α`. -/
theorem welchTTest_significant_eq (P : Prims) (a b : List ℚ) (alpha : ℚ) :
    (welchTTest P a b alpha).significant =
      decide ((welchTTest P a b alpha).pValue < alpha) := rfl

/-- On the main path the verdict is exactly a `determineVerdict` call on the
selected test's outputs: Mann-Whitney data (with the rank-biserial flag) when
the recommendation is `use-nonparametric`, Welch data otherwise. -/
theorem compareConditions_verdict_eq (P : Prims) (fmt : ℚ → ℕ → String)
    (sampleA sampleB : List ℚ) (config : CompareConfig)
    (ha : 3 ≤ sampleA.length) (hb : 3 ≤ sampleB.length) :
    (compareConditions P fmt sampleA sampleB config).verdict =
      if (mainAssessment P fmt sampleA sampleB config).recommendation =
          .useNonparametric then
        determineVerdict
          (mannWhitneyU P sampleA sampleB (resolveConfig config).alpha).significant
          (|(mannWhitneyU P sampleA sampleB (resolveConfig config).alpha).effectSize|)
          (|(mainDiag P fmt sampleA config).mean - (mainDiag P fmt sampleB config).mean|)
          (resolveConfig config) true
      else
        determineVerdict
          (welchTTest P sampleA sampleB (resolveConfig config).alpha).significant
          (|(welchTTest P sampleA sampleB (resolveConfig config).alpha).effectSize|)
          (|(welchTTest P sampleA sampleB (resolveConfig config).alpha).meanDiff|)
          (resolveConfig config) false := by
  have hno : ¬ (sampleA.length < 3 ∨ sampleB.length < 3) := by omega
  by_cases hnp : (mainAssessment P fmt sampleA sampleB config).recommendation =
      .useNonparametric
  · rw [if_pos hnp]
    simp only [mainAssessment, mainDiag] at hnp ⊢
    simp [compareConditions, if_neg hno, hnp]
  · rw [if_neg hnp]
    simp only [mainAssessment, mainDiag] at hnp ⊢
    simp [compareConditions, if_neg hno, hnp]

/-- On the main path, recommendation, overall quality and warnings of the
result are those of the quality assessment. -/
theorem compareConditions_quality_proj (P : Prims) (fmt : ℚ → ℕ → String)
    (sampleA sampleB : List ℚ) (config : CompareConfig)
    (ha : 3 ≤ sampleA.length) (hb : 3 ≤ sampleB.length) :
    (compareConditions P fmt sampleA sampleB config).recommendation =
      (mainAssessment P fmt sampleA sampleB config).recommendation ∧
    (compareConditions P fmt sampleA sampleB config).diagnostics.overallQuality =
      (mainAssessment P fmt sampleA sampleB config).overallQuality ∧
    (compareConditions P fmt sampleA sampleB config).diagnostics.warnings =
      (mainAssessment P fmt sampleA sampleB config).warnings := by
  have hno : ¬ (sampleA.length < 3 ∨ sampleB.length < 3) := by omega
  by_cases hnp : (mainAssessment P fmt sampleA sampleB config).recommendation =
      .useNonparametric
  · refine ⟨?_, ?_, ?_⟩ <;>
      · simp only [mainAssessment, mainDiag] at hnp ⊢
        simp [compareConditions, if_neg hno, hnp]
  · refine ⟨?_, ?_, ?_⟩ <;>
      · simp only [mainAssessment, mainDiag] at hnp ⊢
        simp [compareConditions, if_neg hno, hnp]

/-- C1: on two samples of length at least three, the verdict is `significant`
exactly when all three gates pass — the chosen test's own significance
(`p < α`), an absolute effect size of at least the threshold (the configured
Cohen's-d minimum for Welch, the fixed `0.3` for Mann-Whitney's rank-biserial
scale), and an absolute mean difference of at least the practical threshold —
any failure gives `not-significant`, and this path never produces
`data-quality-issue` (nor `insufficient-data`). -/
theorem compareConditions_three_gates (P : Prims) (fmt : ℚ → ℕ → String)
    (sampleA sampleB : List ℚ) (config : CompareConfig)
    (ha : 3 ≤ sampleA.length) (hb : 3 ≤ sampleB.length) :
    ((compareConditions P fmt sampleA sampleB config).verdict = .significant ∨
      (compareConditions P fmt sampleA sampleB config).verdict = .notSignificant) ∧
    ((mainAssessment P fmt sampleA sampleB config).recommendation = .useNonparametric →
      ((compareConditions P fmt sampleA sampleB config).verdict = .significant ↔
        (mannWhitneyU P sampleA sampleB (resolveConfig config).alpha).pValue <
            (resolveConfig config).alpha ∧
          (0.3 : ℚ) ≤
            |(mannWhitneyU P sampleA sampleB (resolveConfig config).alpha).effectSize| ∧
          (resolveConfig config).practicalThreshold ≤
            |(mainDiag P fmt sampleA config).mean - (mainDiag P fmt sampleB config).mean|)) ∧
    ((mainAssessment P fmt sampleA sampleB config).recommendation ≠ .useNonparametric →
      ((compareConditions P fmt sampleA sampleB config).verdict = .significant ↔
        (welchTTest P sampleA sampleB (resolveConfig config).alpha).pValue <
            (resolveConfig config).alpha ∧
          (resolveConfig config).effectSizeMinimum ≤
            |(welchTTest P sampleA sampleB (resolveConfig config).alpha).effectSize| ∧
          (resolveConfig config).practicalThreshold ≤
            |(welchTTest P sampleA sampleB (resolveConfig config).alpha).meanDiff|)) := by
  have hv := compareConditions_verdict_eq P fmt sampleA sampleB config ha hb
  by_cases hnp : (mainAssessment P fmt sampleA sampleB config).recommendation =
      .useNonparametric
  · rw [if_pos hnp] at hv
    rw [hv]
    refine ⟨determineVerdict_mem _ _ _ _ _, fun _ => ?_, fun hne => absurd hnp hne⟩
    rw [determineVerdict_eq_significant, mannWhitneyU_significant_eq]
    simp [decide_eq_true_eq]
  · rw [if_neg hnp] at hv
    rw [hv]
    refine ⟨determineVerdict_mem _ _ _ _ _, fun hyes => absurd hyes hnp, fun _ => ?_⟩
    rw [determineVerdict_eq_significant, welchTTest_significant_eq]
    simp [decide_eq_true_eq]

/-- Witness for C1 at a pair of three-element samples. -/
theorem compareConditions_three_gates_witness :
    (compareConditions primsW fmtW [1, 2, 3] [4, 5, 6]
        { practicalThreshold := 1, alpha := none, effectSizeMinimum := none,
          outlierThreshold := none, labels := none }).verdict = .significant ∨
    (compareConditions primsW fmtW [1, 2, 3] [4, 5, 6]
        { practicalThreshold := 1, alpha := none, effectSizeMinimum := none,
          outlierThreshold := none, labels := none }).verdict = .notSignificant :=
  (compareConditions_three_gates primsW fmtW [1, 2, 3] [4, 5, 6]
    { practicalThreshold := 1, alpha := none, effectSizeMinimum := none,
      outlierThreshold := none, labels := none } (by decide) (by decide)).1

/-- The closed form of `assessDataQuality`'s sequential merge: the
recommendation, the quality label as a function of the recommendation, and the
warnings in check order (outliers A, outliers B, normality A, normality B). -/
theorem assessDataQuality_spec (fmt : ℚ → ℕ → String) (dA dB : SampleDiagnostics)
    (labels : String × String) :
    (assessDataQuality fmt dA dB labels).recommendation =
      (if dA.outliers.tooMany = true ∨ dB.outliers.tooMany = true ∨
          dA.normality.isNormal = false ∨ dB.normality.isNormal = false then
        .useNonparametric
      else if 0 < dA.outliers.count ∨ 0 < dB.outliers.count then .caution
      else .proceed) ∧
    (assessDataQuality fmt dA dB labels).overallQuality =
      (if (assessDataQuality fmt dA dB labels).recommendation = .useNonparametric then
        .poor
      else if (assessDataQuality fmt dA dB labels).recommendation = .caution then
        .acceptable
      else .good) ∧
    (assessDataQuality fmt dA dB labels).warnings =
      (if dA.outliers.tooMany = true then [warnTooManyOutliers labels.1 dA]
        else if 0 < dA.outliers.count then [warnSomeOutliers fmt labels.1 dA] else []) ++
      (if dB.outliers.tooMany = true then [warnTooManyOutliers labels.2 dB]
        else if 0 < dB.outliers.count then [warnSomeOutliers fmt labels.2 dB] else []) ++
      (if dA.normality.isNormal = false then [warnNonNormal fmt labels.1 dA] else []) ++
      (if dB.normality.isNormal = false then [warnNonNormal fmt labels.2 dB] else []) := by
  by_cases h1 : dA.outliers.tooMany = true <;>
    by_cases h2 : dB.outliers.tooMany = true <;>
    by_cases h3 : dA.normality.isNormal = true <;>
    by_cases h4 : dB.normality.isNormal = true <;>
    by_cases h5 : 0 < dA.outliers.count <;>
    by_cases h6 : 0 < dB.outliers.count <;>
    simp [assessDataQuality, h1, h2, h3, h4, h5, h6]

/-- C2: on the main path the recommendation is the merge the spec describes
(`use-nonparametric` forced by either sample's excessive outliers or failed
normality; otherwise `caution` exactly when some outlier is present;
otherwise `proceed`), the overall quality label tracks the recommendation
(`poor`/`acceptable`/`good`), and the warnings record every contributing
condition in the order outliers-A, outliers-B, normality-A, normality-B. -/
theorem compareConditions_quality_merge (P : Prims) (fmt : ℚ → ℕ → String)
    (sampleA sampleB : List ℚ) (config : CompareConfig)
    (ha : 3 ≤ sampleA.length) (hb : 3 ≤ sampleB.length) :
    ((compareConditions P fmt sampleA sampleB config).recommendation =
      (if (mainDiag P fmt sampleA config).outliers.tooMany = true ∨
          (mainDiag P fmt sampleB config).outliers.tooMany = true ∨
          (mainDiag P fmt sampleA config).normality.isNormal = false ∨
          (mainDiag P fmt sampleB config).normality.isNormal = false then
        .useNonparametric
      else if 0 < (mainDiag P fmt sampleA config).outliers.count ∨
          0 < (mainDiag P fmt sampleB config).outliers.count then .caution
      else .proceed)) ∧
    (((compareConditions P fmt sampleA sampleB config).diagnostics.overallQuality =
        .poor ↔
      (compareConditions P fmt sampleA sampleB config).recommendation =
        .useNonparametric) ∧
      ((compareConditions P fmt sampleA sampleB config).diagnostics.overallQuality =
        .acceptable ↔
      (compareConditions P fmt sampleA sampleB config).recommendation = .caution) ∧
      ((compareConditions P fmt sampleA sampleB config).diagnostics.overallQuality =
        .good ↔
      (compareConditions P fmt sampleA sampleB config).recommendation = .proceed)) ∧
    ((compareConditions P fmt sampleA sampleB config).diagnostics.warnings =
      (if (mainDiag P fmt sampleA config).outliers.tooMany = true then
          [warnTooManyOutliers (resolveConfig config).labels.1 (mainDiag P fmt sampleA config)]
        else if 0 < (mainDiag P fmt sampleA config).outliers.count then
          [warnSomeOutliers fmt (resolveConfig config).labels.1 (mainDiag P fmt sampleA config)]
        else []) ++
      (if (mainDiag P fmt sampleB config).outliers.tooMany = true then
          [warnTooManyOutliers (resolveConfig config).labels.2 (mainDiag P fmt sampleB config)]
        else if 0 < (mainDiag P fmt sampleB config).outliers.count then
          [warnSomeOutliers fmt (resolveConfig config).labels.2 (mainDiag P fmt sampleB config)]
        else []) ++
      (if (mainDiag P fmt sampleA config).normality.isNormal = false then
          [warnNonNormal fmt (resolveConfig config).labels.1 (mainDiag P fmt sampleA config)]
        else []) ++
      (if (mainDiag P fmt sampleB config).normality.isNormal = false then
          [warnNonNormal fmt (resolveConfig config).labels.2 (mainDiag P fmt sampleB config)]
        else [])) := by
  obtain ⟨hrec, hqual, hwarn⟩ :=
    compareConditions_quality_proj P fmt sampleA sampleB config ha hb
  obtain ⟨hrec2, hqual2, hwarn2⟩ :=
    assessDataQuality_spec fmt (mainDiag P fmt sampleA config)
      (mainDiag P fmt sampleB config) (resolveConfig config).labels
  have hassess : assessDataQuality fmt (mainDiag P fmt sampleA config)
      (mainDiag P fmt sampleB config) (resolveConfig config).labels =
      mainAssessment P fmt sampleA sampleB config := rfl
  rw [hassess] at hrec2 hqual2 hwarn2
  refine ⟨hrec.trans hrec2, ?_, hwarn.trans hwarn2⟩
  rw [hrec, hqual, hqual2]
  rcases hr : (mainAssessment P fmt sampleA sampleB config).recommendation <;> simp [hr]

/-- Witness for C2 at a pair of three-element samples. -/
theorem compareConditions_quality_merge_witness :
    ((compareConditions primsW fmtW [1, 2, 3] [4, 5, 6]
        { practicalThreshold := 1, alpha := none, effectSizeMinimum := none,
          outlierThreshold := none, labels := none }).diagnostics.overallQuality =
      .poor ↔
    (compareConditions primsW fmtW [1, 2, 3] [4, 5, 6]
        { practicalThreshold := 1, alpha := none, effectSizeMinimum := none,
          outlierThreshold := none, labels := none }).recommendation =
      .useNonparametric) :=
  (compareConditions_quality_merge primsW fmtW [1, 2, 3] [4, 5, 6]
    { practicalThreshold := 1, alpha := none, effectSizeMinimum := none,
      outlierThreshold := none, labels := none } (by decide) (by decide)).2.1.1

/-! ## C5: Mann-Whitney p-value bounds -/

/-- The Abramowitz-Stegun polynomial is positive on `(0, 1]`. -/
theorem erfPoly_pos (t : ℚ) (h1 : 0 < t) (h2 : t ≤ 1) : 0 < erfPoly t := by
  have hR : (0.92 : ℚ) ≤ 1.421413741 + -1.453152027 * t + 1.061405429 * t ^ 2 := by
    nlinarith [sq_nonneg (t - 6845 / 10000), h2, h1.le]
  have hQ : (0 : ℚ) < 0.254829592 + -0.284496736 * t +
      (1.421413741 + -1.453152027 * t + 1.061405429 * t ^ 2) * t ^ 2 := by
    nlinarith [sq_nonneg (t - 1546 / 10000), sq_nonneg t,
      mul_le_mul_of_nonneg_right hR (sq_nonneg t), h2, h1.le]
  have hP : erfPoly t = (0.254829592 + -0.284496736 * t +
      (1.421413741 + -1.453152027 * t + 1.061405429 * t ^ 2) * t ^ 2) * t := by
    unfold erfPoly
    ring
  rw [hP]
  exact mul_pos hQ h1

/-- The Abramowitz-Stegun polynomial stays strictly below `1` on `[0, 1]`
(with margin exactly `10⁻⁹` at `t = 1`). -/
theorem erfPoly_lt_one (t : ℚ) (h1 : 0 ≤ t) (h2 : t ≤ 1) : erfPoly t < 1 := by
  have hG : (0 : ℚ) ≤ 0.999999999 + 0.745170407 * t + 1.029667143 * t ^ 2 +
      -0.391746598 * t ^ 3 + 1.061405429 * t ^ 4 := by
    nlinarith [mul_nonneg (mul_nonneg h1 h1) (sub_nonneg.mpr h2), sq_nonneg (t * t), h1]
  have key : 1 - erfPoly t = (1 - t) * (0.999999999 + 0.745170407 * t +
      1.029667143 * t ^ 2 + -0.391746598 * t ^ 3 + 1.061405429 * t ^ 4) +
      1 / 1000000000 := by
    unfold erfPoly
    ring
  nlinarith [mul_nonneg (sub_nonneg.mpr h2) hG]

/-- Core computation for `normalCDF` at a strictly negative scaled argument:
`Φ(x) = erfPoly(t)·exp(−u²)/2` with `t ∈ (0, 1)`, so `0 < Φ(x) < 1/2`. -/
theorem normalCDF_neg_bounds_aux (P : Prims) (x : ℚ) (huneg : x / P.sqrt 2 < 0) :
    0 < normalCDF P x ∧ normalCDF P x < 1 / 2 := by
  set u := x / P.sqrt 2 with hudef
  have habs : |u| = -u := abs_of_neg huneg
  have htpos : 0 < 1 + 0.3275911 * |u| := by
    rw [habs]
    nlinarith
  have ht1 : 1 / (1 + 0.3275911 * |u|) ≤ 1 := by
    rw [div_le_one htpos, habs]
    nlinarith
  have ht0 : 0 < 1 / (1 + 0.3275911 * |u|) := by positivity
  have hE0 : 0 < erfPoly (1 / (1 + 0.3275911 * |u|)) := erfPoly_pos _ ht0 ht1
  have hE1 : erfPoly (1 / (1 + 0.3275911 * |u|)) < 1 := erfPoly_lt_one _ ht0.le ht1
  have hearg : -(|u| * |u|) < 0 := by
    rw [habs]
    nlinarith
  have he0 : 0 < P.exp (-(|u| * |u|)) := P.exp_pos _
  have he1 : P.exp (-(|u| * |u|)) < 1 := P.exp_lt_one _ hearg
  have herf : erf P u = -(1 - erfPoly (1 / (1 + 0.3275911 * |u|)) *
      P.exp (-(|u| * |u|))) := by
    rw [erf_eq, if_neg (not_le.mpr huneg)]
    ring
  have hcdf : normalCDF P x = (erfPoly (1 / (1 + 0.3275911 * |u|)) *
      P.exp (-(|u| * |u|))) / 2 := by
    rw [normalCDF, ← hudef, herf]
    ring
  rw [hcdf]
  constructor
  · positivity
  · nlinarith

/-- `normalCDF` at a nonpositive argument is positive, and strictly below
`1/2` at a negative argument (the Mann-Whitney call site only evaluates it at
`-|z| ≤ 0`). -/
theorem normalCDF_nonpos_bounds (P : Prims) (x : ℚ) (hx : x ≤ 0) :
    0 < normalCDF P x ∧ (x < 0 → normalCDF P x < 1 / 2) := by
  have hs2 : 0 < P.sqrt 2 := P.sqrt_pos 2 (by norm_num)
  rcases eq_or_lt_of_le hx with hx0 | hxneg
  · subst hx0
    constructor
    · rw [normalCDF, zero_div, erf_eq]
      have habs : |(0 : ℚ)| = 0 := abs_zero
      rw [habs]
      have he : P.exp (-(0 * 0)) = 1 := by
        have h00 : (-(0 * 0) : ℚ) = 0 := by norm_num
        rw [h00, P.exp_zero]
      rw [he]
      norm_num [erfPoly]
    · intro h0
      exact absurd h0 (lt_irrefl 0)
  · have huneg : x / P.sqrt 2 < 0 := div_neg_of_neg_of_pos hxneg hs2
    obtain ⟨h1, h2⟩ := normalCDF_neg_bounds_aux P x huneg
    exact ⟨h1, fun _ => h2⟩

/-- The p-value of `mannWhitneyU` is `2·Φ(−|z|)`. -/
theorem mannWhitneyU_pValue_eq (P : Prims) (a b : List ℚ) (alpha : ℚ) :
    (mannWhitneyU P a b alpha).pValue =
      2 * normalCDF P (-|mannWhitneyZ P a b|) := rfl

/-- C5 (amended): on any two non-empty samples — ties included — the
Mann-Whitney p-value is strictly positive, and it is strictly below `1`
whenever the continuity-corrected statistic `z = (U − n1·n2/2 + 0.5)/stdU` is
nonzero.  (At `z = 0` the p-value is `1 + 10⁻⁹`, slightly above `1`; that is
the recorded counterexample to the claim as frozen.) -/
theorem mannWhitney_pValue_bounds (P : Prims) (a b : List ℚ) (alpha : ℚ)
    (ha : a ≠ []) (hb : b ≠ []) :
    0 < (mannWhitneyU P a b alpha).pValue ∧
    (mannWhitneyZ P a b ≠ 0 → (mannWhitneyU P a b alpha).pValue < 1) := by
  have hz : -|mannWhitneyZ P a b| ≤ 0 := neg_nonpos.mpr (abs_nonneg _)
  obtain ⟨hpos, hlt⟩ := normalCDF_nonpos_bounds P (-|mannWhitneyZ P a b|) hz
  rw [mannWhitneyU_pValue_eq]
  constructor
  · linarith
  · intro hzne
    have hzpos : 0 < |mannWhitneyZ P a b| := abs_pos.mpr hzne
    have := hlt (by linarith)
    linarith

/-- Witness for C5's amended statement at `[1, 2]` vs `[4]`, where
`z = −1/2 ≠ 0`. -/
theorem mannWhitney_pValue_bounds_witness :
    0 < (mannWhitneyU primsW [1, 2] [4] 0.05).pValue ∧
    (mannWhitneyU primsW [1, 2] [4] 0.05).pValue < 1 := by
  obtain ⟨h1, h2⟩ := mannWhitney_pValue_bounds primsW [1, 2] [4] 0.05
    (by simp) (by simp)
  refine ⟨h1, h2 ?_⟩
  norm_num [mannWhitneyZ, mwU, mwU1, mwU2, mwRankSum, mwCombined, assignRanks,
    rankBlocks, primsW, List.takeWhile_cons, List.insertionSort, List.orderedInsert,
    List.filter_cons, List.replicate]

/-- Counterexample to C5 as frozen: at the non-empty samples `[1]`, `[2]`
(no ties even needed) the returned p-value is `1 + 10⁻⁹`, not strictly below
`1`: there `U = 0`, the continuity correction makes `z = 0` exactly, and
`2·Φ(0) = 1 + erf(0) = 1 + 10⁻⁹` because the polynomial `erf` approximation is
not exactly `0` at `0` (only `exp 0 = 1` is used of the environment, which
`Math.exp` satisfies). -/
theorem mannWhitney_pValue_counterexample :
    ([1] : List ℚ) ≠ [] ∧ ([2] : List ℚ) ≠ [] ∧
    ¬ ((mannWhitneyU primsW [1] [2] 0.05).pValue < 1) := by
  refine ⟨by simp, by simp, ?_⟩
  norm_num [mannWhitneyU, mwU, mwU1, mwU2, mwRankSum, mwCombined, assignRanks,
    rankBlocks, mannWhitneyZ, normalCDF, erf, erfPoly, primsW, List.takeWhile_cons,
    List.insertionSort, List.orderedInsert, List.filter_cons, List.replicate]

/-! ## C10: rank-sum facts for the rank-biserial effect size -/

/-- `rankBlocks` assigns exactly one rank per value. -/
theorem rankBlocks_length (i : ℕ) (l : List ℚ) :
    (rankBlocks i l).length = l.length := by
  induction i, l using rankBlocks.induct with
  | case1 i => simp [rankBlocks]
  | case2 i v rest k ih =>
    have hk : k = (rest.takeWhile fun w => w == v).length := rfl
    have hk2 : k ≤ rest.length := by
      rw [hk]
      exact (List.takeWhile_sublist _).length_le
    rw [rankBlocks, ← hk]
    simp only [List.length_append, List.length_replicate, List.length_cons,
      List.length_drop, ih]
    omega

/-- Tie-averaging preserves the total: the ranks starting at position `i` over
a block of `n` values sum to `(i+1) + (i+2) + ⋯ + (i+n) = n(n + 2i + 1)/2`. -/
theorem rankBlocks_sum (i : ℕ) (l : List ℚ) :
    (rankBlocks i l).sum =
      (l.length : ℚ) * ((l.length : ℚ) + 2 * (i : ℚ) + 1) / 2 := by
  induction i, l using rankBlocks.induct with
  | case1 i => simp [rankBlocks]
  | case2 i v rest k ih =>
    have hk : k = (rest.takeWhile fun w => w == v).length := rfl
    have hk2 : k ≤ rest.length := by
      rw [hk]
      exact (List.takeWhile_sublist _).length_le
    rw [rankBlocks, ← hk]
    rw [List.sum_append, List.sum_replicate, nsmul_eq_mul, ih]
    simp only [List.length_drop, List.length_cons]
    have hcast : ((rest.length - k : ℕ) : ℚ) = (rest.length : ℚ) - (k : ℚ) := by
      have := hk2
      push_cast [this]
      ring
    rw [hcast]
    push_cast
    ring

/-- A replicated list is sorted. -/
theorem sorted_replicate (n : ℕ) (a : ℚ) :
    (List.replicate n a).Sorted (· ≤ ·) := by
  induction n with
  | zero => simp
  | succ n ih =>
    rw [List.replicate_succ]
    exact List.sorted_cons.mpr ⟨fun b hb => le_of_eq (List.eq_of_mem_replicate hb).symm, ih⟩

/-- The rank list is non-decreasing and every rank exceeds the start index. -/
theorem rankBlocks_bounds (i : ℕ) (l : List ℚ) :
    (rankBlocks i l).Sorted (· ≤ ·) ∧
      ∀ x ∈ rankBlocks i l, (i : ℚ) + 1 ≤ x := by
  induction i, l using rankBlocks.induct with
  | case1 i => simp [rankBlocks]
  | case2 i v rest k ih =>
    have hk : k = (rest.takeWhile fun w => w == v).length := rfl
    obtain ⟨ihs, ihb⟩ := ih
    rw [rankBlocks, ← hk]
    constructor
    · rw [List.Sorted, List.pairwise_append]
      refine ⟨sorted_replicate _ _, ihs, ?_⟩
      intro x hx y hy
      rw [List.eq_of_mem_replicate hx]
      have hyb := ihb y hy
      have hk0 : (0 : ℚ) ≤ (k : ℚ) := Nat.cast_nonneg k
      push_cast at hyb ⊢
      linarith
    · intro x hx
      rcases List.mem_append.mp hx with hx | hx
      · rw [List.eq_of_mem_replicate hx]
        have hk0 : (0 : ℚ) ≤ (k : ℚ) := Nat.cast_nonneg k
        push_cast
        linarith
      · have := ihb x hx
        have hk0 : (0 : ℚ) ≤ (k : ℚ) := Nat.cast_nonneg k
        push_cast at this ⊢
        linarith

/-- Prefix sums of the rank list dominate the untied prefix sums: any `m`
ranks from the front sum to at least `(i+1) + ⋯ + (i+m)`. -/
theorem rankBlocks_take_sum (i : ℕ) (l : List ℚ) :
    ∀ m : ℕ, m ≤ l.length →
      (m : ℚ) * ((m : ℚ) + 2 * (i : ℚ) + 1) / 2 ≤ ((rankBlocks i l).take m).sum := by
  induction i, l using rankBlocks.induct with
  | case1 i =>
    intro m hm
    simp only [List.length_nil, Nat.le_zero] at hm
    subst hm
    simp [rankBlocks]
  | case2 i v rest k ih =>
    intro m hm
    have hk : k = (rest.takeWhile fun w => w == v).length := rfl
    have hk2 : k ≤ rest.length := by
      rw [hk]
      exact (List.takeWhile_sublist _).length_le
    rw [rankBlocks, ← hk]
    rw [List.take_append_eq_append_take, List.length_replicate, List.sum_append,
      List.take_replicate, List.sum_replicate, nsmul_eq_mul]
    by_cases hmk : m ≤ k + 1
    · have h1 : min m (k + 1) = m := min_eq_left hmk
      have h2 : m - (k + 1) = 0 := by omega
      rw [h1, h2, List.take_zero, List.sum_nil]
      have hmq : (m : ℚ) ≤ (k : ℚ) + 1 := by exact_mod_cast hmk
      have hm0 : (0 : ℚ) ≤ (m : ℚ) := by positivity
      push_cast
      nlinarith
    · have h1 : min m (k + 1) = k + 1 := min_eq_right (by omega)
      have hm2 : m - (k + 1) ≤ (rest.drop k).length := by
        simp only [List.length_drop]
        simp only [List.length_cons] at hm
        omega
      have IH := ih (m - (k + 1)) hm2
      rw [h1]
      have hcast : ((m - (k + 1) : ℕ) : ℚ) = (m : ℚ) - ((k : ℚ) + 1) := by
        have h3 : k + 1 ≤ m := by omega
        push_cast [h3]
        ring
      rw [hcast] at IH
      push_cast at IH ⊢
      nlinarith [IH]

/-- In a non-decreasing list, any selection of `m` entries sums to at least
the first `m` entries. -/
theorem sorted_sublist_sum {s r : List ℚ} (hs : List.Sublist s r)
    (hr : r.Sorted (· ≤ ·)) : ((r.take s.length).sum ≤ s.sum) := by
  induction hs with
  | slnil => simp
  | @cons l₁ l₂ a hsub ih =>
    obtain ⟨hal, hl⟩ := List.sorted_cons.mp hr
    have IH := ih hl
    rcases Nat.eq_zero_or_pos l₁.length with h0 | hpos
    · rw [h0]
      rw [List.length_eq_zero.mp h0]
      simp
    · have hm : l₁.length = (l₁.length - 1) + 1 := by omega
      have hml : l₁.length - 1 < l₂.length := by
        have := hsub.length_le
        omega
      rw [hm, List.take_succ_cons, List.sum_cons]
      have htake : l₂.take (l₁.length - 1 + 1) =
          l₂.take (l₁.length - 1) ++ [l₂.get ⟨l₁.length - 1, hml⟩] := by
        rw [List.take_succ]
        simp [List.getElem?_eq_getElem hml, List.get_eq_getElem]
      rw [hm, htake, List.sum_append, List.sum_cons, List.sum_nil] at IH
      have ha2 : a ≤ l₂.get ⟨l₁.length - 1, hml⟩ := hal _ (l₂.get_mem _ _)
      linarith
  | @cons₂ l₁ l₂ a hsub ih =>
    obtain ⟨hal, hl⟩ := List.sorted_cons.mp hr
    have IH := ih hl
    rw [List.length_cons, List.take_succ_cons, List.sum_cons, List.sum_cons]
    linarith

/-- The second components of a zip form a sublist of the second list. -/
theorem map_snd_zip_sublist {α β : Type} :
    ∀ (c : List α) (r : List β), List.Sublist ((c.zip r).map Prod.snd) r := by
  intro c
  induction c with
  | nil => intro r; simp
  | cons a c ih =>
    intro r
    cases r with
    | nil => simp
    | cons x r =>
      simpa using List.Sublist.cons₂ x (ih r)

/-- Filtering a zip on a property of the first components keeps as many
entries as filtering the first list. -/
theorem zip_filter_snd_length {α β : Type} (g : α → Bool) :
    ∀ (c : List α) (r : List β), c.length = r.length →
      (((c.zip r).filter fun pr => g pr.1).map Prod.snd).length =
        (c.filter g).length := by
  intro c
  induction c with
  | nil => intro r h; simp
  | cons a c ih =>
    intro r h
    cases r with
    | nil => simp at h
    | cons x r =>
      simp only [List.zip_cons_cons, List.filter_cons]
      cases hga : g a <;>
        simp [hga, ih r (by simpa using h)]

/-- Splitting a tagged rank list by its Boolean tag splits its sum. -/
theorem zip_filter_sum_split :
    ∀ (l : List ((ℚ × Bool) × ℚ)),
      ((l.filter fun pr => pr.1.2 == true).map Prod.snd).sum +
        ((l.filter fun pr => pr.1.2 == false).map Prod.snd).sum =
        (l.map Prod.snd).sum := by
  intro l
  induction l with
  | nil => simp
  | cons p l ih =>
    rcases p with ⟨⟨v, g⟩, rank⟩
    cases g <;> simp [List.filter_cons, ← ih] <;> ring

/-- `mwCombined` keeps every observation. -/
theorem mwCombined_length (a b : List ℚ) :
    (mwCombined a b).length = a.length + b.length := by
  simp [mwCombined, List.length_insertionSort]

/-- The sorted combination holds exactly `n1` group-A tags. -/
theorem mwCombined_count_true (a b : List ℚ) :
    ((mwCombined a b).filter fun p => p.2 == true).length = a.length := by
  have hperm := (List.perm_insertionSort (fun p q : ℚ × Bool => p.1 ≤ q.1)
    ((a.map fun value => (value, true)) ++ (b.map fun value => (value, false)))).filter
    (fun p => p.2 == true)
  rw [mwCombined, hperm.length_eq]
  simp [List.filter_append, List.filter_map, Function.comp_def]

/-- The sorted combination holds exactly `n2` group-B tags. -/
theorem mwCombined_count_false (a b : List ℚ) :
    ((mwCombined a b).filter fun p => p.2 == false).length = b.length := by
  have hperm := (List.perm_insertionSort (fun p q : ℚ × Bool => p.1 ≤ q.1)
    ((a.map fun value => (value, true)) ++ (b.map fun value => (value, false)))).filter
    (fun p => p.2 == false)
  rw [mwCombined, hperm.length_eq]
  simp [List.filter_append, List.filter_map, Function.comp_def]

/-- The rank list of the combined sample. -/
def mwRanks (a b : List ℚ) : List ℚ :=
  assignRanks ((mwCombined a b).map Prod.fst)

/-- The rank list has one rank per combined observation. -/
theorem mwRanks_length (a b : List ℚ) :
    (mwRanks a b).length = a.length + b.length := by
  rw [mwRanks, assignRanks, rankBlocks_length, List.length_map, mwCombined_length]

/-- A group's rank sum is at least the untied minimum `n(n+1)/2` for its
size: the selected ranks are a sublist of the sorted rank list, whose prefix
sums dominate `(1) + (2) + ⋯`. -/
theorem mwRankSum_ge (a b : List ℚ) (g : Bool) :
    ((if g then (a.length : ℚ) else (b.length : ℚ)) *
      ((if g then (a.length : ℚ) else (b.length : ℚ)) + 1)) / 2 ≤
      mwRankSum a b g := by
  have hlen : (mwCombined a b).length = (mwRanks a b).length := by
    rw [mwRanks_length, mwCombined_length]
  have hsub : List.Sublist ((((mwCombined a b).zip (mwRanks a b)).filter
      (fun pr => pr.1.2 == g)).map Prod.snd) (mwRanks a b) :=
    ((List.filter_sublist _).map Prod.snd).trans
      (map_snd_zip_sublist (mwCombined a b) (mwRanks a b))
  have hsellen : ((((mwCombined a b).zip (mwRanks a b)).filter
      (fun pr => pr.1.2 == g)).map Prod.snd).length =
      (if g then a.length else b.length) := by
    rw [zip_filter_snd_length (fun q => q.2 == g) (mwCombined a b) (mwRanks a b) hlen]
    cases g
    · exact mwCombined_count_false a b
    · exact mwCombined_count_true a b
  have hsorted : (mwRanks a b).Sorted (· ≤ ·) := (rankBlocks_bounds 0 _).1
  have htake := sorted_sublist_sum hsub hsorted
  have hprefix := rankBlocks_take_sum 0 ((mwCombined a b).map Prod.fst)
    (if g then a.length else b.length)
    (by
      rw [List.length_map, mwCombined_length]
      cases g <;> simp <;> omega)
  rw [hsellen] at htake
  have hR : mwRankSum a b g = ((((mwCombined a b).zip (mwRanks a b)).filter
      (fun pr => pr.1.2 == g)).map Prod.snd).sum := rfl
  rw [hR]
  have hmw : mwRanks a b = rankBlocks 0 ((mwCombined a b).map Prod.fst) := rfl
  rw [hmw] at htake
  refine le_trans ?_ (le_trans hprefix htake)
  cases g <;> push_cast <;> ring_nf <;> linarith

/-- The two rank sums exhaust the rank list: `R1 + R2 = N(N+1)/2`. -/
theorem mwRankSum_total (a b : List ℚ) :
    mwRankSum a b true + mwRankSum a b false =
      ((a.length : ℚ) + (b.length : ℚ)) * (((a.length : ℚ) + (b.length : ℚ)) + 1) / 2 := by
  have hlen : (mwRanks a b).length = (mwCombined a b).length := by
    rw [mwRanks_length, mwCombined_length]
  have hsplit := zip_filter_sum_split ((mwCombined a b).zip (mwRanks a b))
  have hmapsnd : ((mwCombined a b).zip (mwRanks a b)).map Prod.snd = mwRanks a b :=
    List.map_snd_zip _ _ (le_of_eq hlen)
  have hsum2 : (mwRanks a b).sum = ((a.length + b.length : ℕ) : ℚ) *
      (((a.length + b.length : ℕ) : ℚ) + 1) / 2 := by
    have hrb := rankBlocks_sum 0 ((mwCombined a b).map Prod.fst)
    rw [mwRanks, assignRanks, hrb, List.length_map, mwCombined_length]
    push_cast
    ring
  have h1 : mwRankSum a b true + mwRankSum a b false = (mwRanks a b).sum := by
    rw [← hmapsnd, ← hsplit]
    rfl
  rw [h1, hsum2]
  push_cast
  ring

/-- `U1 ≥ 0`. -/
theorem mwU1_nonneg (a b : List ℚ) : 0 ≤ mwU1 a b := by
  have h := mwRankSum_ge a b true
  simp only [if_true] at h
  rw [mwU1]
  linarith [h]

/-- `U2 ≥ 0`. -/
theorem mwU2_nonneg (a b : List ℚ) : 0 ≤ mwU2 a b := by
  have h := mwRankSum_ge a b false
  simp only [Bool.false_eq_true, if_false] at h
  rw [mwU2]
  linarith [h]

/-- `U1 + U2 = n1·n2`. -/
theorem mwU1_add_mwU2 (a b : List ℚ) :
    mwU1 a b + mwU2 a b = (a.length : ℚ) * (b.length : ℚ) := by
  rw [mwU1, mwU2]
  have h := mwRankSum_total a b
  nlinarith [h]

/-- The effect size of `mannWhitneyU` is `1 − 2U/(n1·n2)`. -/
theorem mannWhitneyU_effectSize_eq (P : Prims) (a b : List ℚ) (alpha : ℚ) :
    (mannWhitneyU P a b alpha).effectSize =
      1 - 2 * mwU a b / ((a.length : ℚ) * (b.length : ℚ)) := rfl

/-- C10: the rank-biserial effect size returned by `mannWhitneyU` always lies
in `[0, 1]`: `U = min(U1, U2)` with `U1, U2 ≥ 0` and `U1 + U2 = n1·n2`, so
`0 ≤ U ≤ n1·n2/2` and `1 − 2U/(n1·n2) ∈ [0, 1]` — the sign never encodes the
direction of the effect. -/
theorem mannWhitney_effectSize_bounds (P : Prims) (a b : List ℚ) (alpha : ℚ)
    (ha : a ≠ []) (hb : b ≠ []) :
    0 ≤ (mannWhitneyU P a b alpha).effectSize ∧
      (mannWhitneyU P a b alpha).effectSize ≤ 1 := by
  rw [mannWhitneyU_effectSize_eq]
  have h1 := mwU1_nonneg a b
  have h2 := mwU2_nonneg a b
  have h12 := mwU1_add_mwU2 a b
  have hU1 : mwU a b ≤ mwU1 a b := min_le_left _ _
  have hU2 : mwU a b ≤ mwU2 a b := min_le_right _ _
  have hU0 : 0 ≤ mwU a b := le_min h1 h2
  have hna : 0 < a.length := List.length_pos.mpr ha
  have hnb : 0 < b.length := List.length_pos.mpr hb
  have hm : (0 : ℚ) < (a.length : ℚ) * (b.length : ℚ) := by
    have h3 : (0 : ℚ) < (a.length : ℚ) := by exact_mod_cast hna
    have h4 : (0 : ℚ) < (b.length : ℚ) := by exact_mod_cast hnb
    positivity
  constructor
  · have hdiv : 2 * mwU a b / ((a.length : ℚ) * (b.length : ℚ)) ≤ 1 := by
      rw [div_le_one hm]
      linarith
    linarith
  · have hdiv : 0 ≤ 2 * mwU a b / ((a.length : ℚ) * (b.length : ℚ)) := by
      positivity
    linarith

/-- Witness for C10 at `[1]` vs `[2]` (there `U = 0` and the effect is `1`). -/
theorem mannWhitney_effectSize_bounds_witness :
    0 ≤ (mannWhitneyU primsW [1] [2] 0.05).effectSize ∧
      (mannWhitneyU primsW [1] [2] 0.05).effectSize ≤ 1 :=
  mannWhitney_effectSize_bounds primsW [1] [2] 0.05 (by simp) (by simp)

end EvidenceGate
